import Mathlib

/-!
Espple: the memory bus, PIA, terminal driver and network handlers of `user_main.c`.

A shallow embedding of `src/user/user_main.c`.

* A C array is modelled by its indexing function `Nat → Nat`.  The declared size of the
  array is carried by the constants (`RAM_SIZE`, `TERM_WIDTH * TERM_HEIGHT`); a cell whose
  index is not below the declared size lies outside the array, and the statements about the
  RAM or the grid quantify over the indices below the size.  Which index a function uses is
  exposed by a definition of its own (`cursor_index`, ...), so that bounds are stated and
  proved (or refuted) separately.
* The functions `toggle_cursor`, `terminal_write` and `terminal_clearScreen` are exact while
  the cursor cell they store to is inside `terminal_ram`.  Their `_checked` variants return
  `none` as soon as a store is past the array, where C leaves the effect of the store open;
  the statements about the terminal are made for calls whose stores stay inside the array.
* `uint8_t` and `uint16_t` values are naturals; `% 256` and `% 65536` are written where the C
  code converts an `int` result back to the narrow type.
* Functions that mutate globals take the machine state and return the new one.
-/

namespace Espple

/-! ## Constants -/

def RAM_SIZE : Nat := 0x5000

def TERM_WIDTH : Nat := 40

def TERM_HEIGHT : Nat := 24

def SPACE : Nat := 0x20

/-! ## Data model -/

/-- The `struct pia6821`: four consecutive `uint8_t` registers. -/
structure pia6821 where
  keyboard_register : Nat
  keyboard_control : Nat
  display_register : Nat
  display_control : Nat

/-- The globals of `user_main.c` that the bus, the terminal and the network handlers use:
`computer_ram[RAM_SIZE]`, `terminal_ram[TERM_WIDTH * TERM_HEIGHT]`, `load_target_start`,
`term_x`, `term_y`, `cursor_visible`, `cursor_disabled` and `pia`. -/
structure State where
  computer_ram : Nat → Nat
  terminal_ram : Nat → Nat
  load_target_start : Nat
  term_x : Nat
  term_y : Nat
  cursor_visible : Nat
  cursor_disabled : Nat
  pia : pia6821

/-- The state after the C start-up code: every global is zero-initialised. -/
def power_on : State :=
  { computer_ram := fun _ => 0
    terminal_ram := fun _ => 0
    load_target_start := 0
    term_x := 0
    term_y := 0
    cursor_visible := 0
    cursor_disabled := 0
    pia := ⟨0, 0, 0, 0⟩ }

/-! ## Array primitives -/

/-- The assignment `m[i] = v`. -/
def store (m : Nat → Nat) (i v : Nat) : Nat → Nat :=
  fun j => if j = i then v else m j

/-- The call `ets_memset(m + base, v, n)`: `n` cells from `base` on are set to `v`. -/
def memset (m : Nat → Nat) (base v n : Nat) : Nat → Nat :=
  fun j => if base ≤ j ∧ j < base + n then v else m j

/-- The call `ets_memcpy(m + dst, m + src, n)` inside one array: cell `dst + k` receives the
old content of cell `src + k` for `k < n`. -/
def memcpy_within (m : Nat → Nat) (dst src n : Nat) : Nat → Nat :=
  fun j => if dst ≤ j ∧ j < dst + n then m (src + (j - dst)) else m j

/-- The call `ets_memcpy(m + dst, buf + off, n)` from a received buffer: cell `dst + k`
receives byte `off + k` of the buffer for `k < n`. -/
def memcpy_from (m : Nat → Nat) (dst : Nat) (buf : List Nat) (off n : Nat) : Nat → Nat :=
  fun j => if dst ≤ j ∧ j < dst + n then buf.getD (off + (j - dst)) 0 else m j

/-! ## Reset -/

/-- Modelled from the spec: `reset6502` is a function of the external CPU engine, whose
source is not part of `user_main.c`.  The spec (4.6) says that it "reinitializes the external
CPU engine's registers"; none of them is a global of `user_main.c`, so the function leaves
this state as it is. -/
def reset6502 (s : State) : State := s

/-- The function `reset_emulator`. -/
def reset_emulator (s : State) : State :=
  reset6502
    { s with
      term_x := 0
      term_y := 0
      computer_ram := memset s.computer_ram 0 0xff RAM_SIZE
      terminal_ram := memset s.terminal_ram 0 0b100000 (TERM_WIDTH * TERM_HEIGHT) }

/-! ## Memory bus: reads -/

/-- The load `*(&pia.keyboard_register + off)`: the register at byte offset `off` of the
struct.  Offsets 4 and above are past the end of the struct: the value loaded there is not
determined by the program, which `none` stands for. -/
def pia_load (p : pia6821) (off : Nat) : Option Nat :=
  match off with
  | 0 => some p.keyboard_register
  | 1 => some p.keyboard_control
  | 2 => some p.display_register
  | 3 => some p.display_control
  | _ => none

/-- The function `read6502`, with the table `woz_monitor` of `woz_monitor.h` as a parameter.
Returns the byte read and the state after the read. -/
def read6502 (woz_monitor : Nat → Nat) (s : State) (address : Nat) : Option Nat × State :=
  if address < RAM_SIZE then
    (some (s.computer_ram address), s)
  else if address &&& 0xF000 = 0xE000 then
    (some (s.computer_ram (address - 0xA000)), s)
  else if address &&& 0xFFF0 = 0xD010 then
    let s1 :=
      if address = 0xD010 then { s with pia := { s.pia with keyboard_control := 0x00 } }
      else s
    (pia_load s1.pia (address - 0xD010), s1)
  else if address &&& 0xFF00 = 0xFF00 then
    (some (woz_monitor (address - 0xFF00)), s)
  else
    (some 0xff, s)

/-! ## Terminal driver -/

/-- The index expression `term_y * TERM_WIDTH + term_x` of the cursor cell. -/
def cursor_index (s : State) : Nat := s.term_y * TERM_WIDTH + s.term_x

/-- The function `toggle_cursor`. -/
def toggle_cursor (s : State) : State :=
  let cursor_visible := s.cursor_visible ^^^ 1
  { s with
    cursor_visible := cursor_visible
    terminal_ram :=
      store s.terminal_ram (cursor_index s)
        (if cursor_visible ||| s.cursor_disabled ≠ 0 then 0x20 else 0x00) }

/-- The scroll of `terminal_write`: `ets_memcpy` of 23 lines one line up, then `ets_memset` of
the last line to blanks. -/
def scroll_up (g : Nat → Nat) : Nat → Nat :=
  memset (memcpy_within g 0 TERM_WIDTH (TERM_WIDTH * (TERM_HEIGHT - 1)))
    (TERM_WIDTH * (TERM_HEIGHT - 1)) SPACE TERM_WIDTH

/-- The function `terminal_write`. -/
def terminal_write (s : State) (value : Nat) : State :=
  let s1 := toggle_cursor { s with cursor_disabled := 1 }
  let s2 :=
    if s1.term_x > 39 ∨ value = 0x0D ∨ value = 0x0A then
      if s1.term_y ≥ 23 then
        { s1 with term_x := 0, terminal_ram := scroll_up s1.terminal_ram }
      else
        { s1 with term_x := 0, term_y := (s1.term_y + 1) % 256 }
    else s1
  let s3 :=
    if value ≥ 0x20 ∧ value ≤ 0x7E then
      { s2 with
        terminal_ram := store s2.terminal_ram (cursor_index s2) (value &&& 0x3F)
        term_x := (s2.term_x + 1) % 256 }
    else s2
  { s3 with cursor_disabled := 0 }

/-- The function `setCursorPosition`. -/
def setCursorPosition (s : State) (x y : Nat) : State :=
  let x1 := if x ≥ TERM_WIDTH then TERM_WIDTH - 1 else x
  let x2 := if y ≥ TERM_HEIGHT then TERM_HEIGHT - 1 else x1
  { s with term_x := x2, term_y := y }

/-- The function `terminal_clearScreen`: `TERM_WIDTH * TERM_HEIGHT` calls of
`terminal_write(32)`, then the cursor is set to the origin. -/
def terminal_clearScreen (s : State) : State :=
  let s1 := Nat.iterate (fun t => terminal_write t 32) (TERM_WIDTH * TERM_HEIGHT) s
  { s1 with term_x := 0, term_y := 0 }

/-- A run of `terminal_write` calls, one per byte, in order. -/
def terminal_write_all (s : State) (cs : List Nat) : State :=
  cs.foldl terminal_write s

/-! ## Memory bus: writes -/

/-- The function `write6502`. -/
def write6502 (s : State) (address value : Nat) : State :=
  if address < RAM_SIZE then
    { s with computer_ram := store s.computer_ram address value }
  else if address &&& 0xF000 = 0xE000 then
    { s with computer_ram := store s.computer_ram (address - 0xA000) value }
  else if address = 0xD010 then
    { s with pia := { s.pia with keyboard_register := value, keyboard_control := 0xFF } }
  else if address = 0xD012 then
    terminal_write s ((value ^^^ 0x80) % 256)
  else s

/-- The index into `computer_ram` that `read6502` and `write6502` use for an address: the
address itself below `RAM_SIZE`, the address less 0xA000 in the window that
`(address & 0xF000) == 0xE000` selects, and none for the addresses that the bus does not map
to RAM. -/
def bus_ram_index (address : Nat) : Option Nat :=
  if address < RAM_SIZE then some address
  else if address &&& 0xF000 = 0xE000 then some (address - 0xA000)
  else none

/-! ## Telnet input -/

/-- The function `dataRecvCallback`: only the first byte `*pusrdata` of the received buffer
is looked at. -/
def dataRecvCallback (s : State) (pusrdata : List Nat) : State :=
  let input_character := pusrdata.getD 0 0
  if input_character > 0x60 ∧ input_character < 0x7B then
    write6502 s 0xd010 (((input_character ^^^ 0x20) ||| 0x80) % 256)
  else if input_character = 0x0A then
    write6502 s 0xd010 ((0x0D ||| 0x80) % 256)
  else if input_character = 0x7F then
    write6502 s 0xd010 ((0x5F ||| 0x80) % 256)
  else if input_character = 0x03 then
    reset_emulator s
  else
    write6502 s 0xd010 ((input_character ||| 0x80) % 256)

/-- The telnet filter in the words of the spec (4.5): lowercase letters to uppercase by XOR
with 0x20, line-feed to carriage-return, DEL to the underscore, every other byte unchanged. -/
def spec_filter (b : Nat) : Nat :=
  if 0x61 ≤ b ∧ b ≤ 0x7A then b ^^^ 0x20
  else if b = 0x0A then 0x0D
  else if b = 0x7F then 0x5F
  else b

/-! ## TFTP loader -/

/-- The function `tftp_server_recv`: the packet is the list of its bytes, `len` its length.
Returns the new state and the packet handed to `espconn_send`, if any. -/
def tftp_server_recv (s : State) (pdata : List Nat) : State × Option (List Nat) :=
  let len := pdata.length
  if len < 4 then
    (s, none)
  else if pdata.getD 1 0 = 0x02 then
    let t := ((s.computer_ram 0x27 <<< 8) + s.computer_ram 0x26) % 65536
    let t1 := if t ≥ 0xE000 then (t - 0xA000) % 65536 else t
    ({ s with load_target_start := t1 }, some [0x00, 0x04, 0x00, 0x00])
  else if pdata.getD 1 0 = 0x03 then
    ({ s with
       computer_ram := memcpy_from s.computer_ram s.load_target_start pdata 4 (len - 4)
       load_target_start := (s.load_target_start + (len - 4)) % 65536 },
     some [0x00, 0x04, pdata.getD 2 0, pdata.getD 3 0])
  else
    (s, some [0x00, 0x04, 0x00, 0x00])

/-! ## Sequences of terminal operations -/

/-- The calls that move the cursor or change the grid. -/
inductive TermOp where
  | write (value : Nat)
  | toggle
  | setCursor (x y : Nat)
  | clearScreen
  | reset

/-- One call. -/
def TermOp.apply (s : State) : TermOp → State
  | .write value => terminal_write s value
  | .toggle => toggle_cursor s
  | .setCursor x y => setCursorPosition s x y
  | .clearScreen => terminal_clearScreen s
  | .reset => reset_emulator s

/-- A sequence of calls, in order. -/
def run (s : State) (ops : List TermOp) : State :=
  ops.foldl TermOp.apply s

/-- The calls whose row argument, if they have one, is a row of the grid: every call but a
`setCursorPosition(x, y)` with `y >= TERM_HEIGHT`. -/
def TermOp.rowInGrid : TermOp → Bool
  | .setCursor _ y => decide (y < TERM_HEIGHT)
  | _ => true

/-! ## Terminal driver with the bound of `terminal_ram` checked

The functions of the terminal driver once more, with every store into
`terminal_ram[TERM_WIDTH * TERM_HEIGHT]` checked against the size of the array.  A store past
the array changes memory that does not belong to it; what it changes is not determined by the
program, which `none` stands for.  The copies of the scroll use constant offsets inside the
array and need no check. -/

/-- The assignment `terminal_ram[i] = v`, defined when `i` is an index of the array. -/
def store_checked (g : Nat → Nat) (i v : Nat) : Option (Nat → Nat) :=
  if i < TERM_WIDTH * TERM_HEIGHT then some (store g i v) else none

/-- The function `toggle_cursor`, its store checked. -/
def toggle_cursor_checked (s : State) : Option State :=
  let cursor_visible := s.cursor_visible ^^^ 1
  match store_checked s.terminal_ram (cursor_index s)
      (if cursor_visible ||| s.cursor_disabled ≠ 0 then 0x20 else 0x00) with
  | some g => some { s with cursor_visible := cursor_visible, terminal_ram := g }
  | none => none

/-- The function `terminal_write`, its stores checked. -/
def terminal_write_checked (s : State) (value : Nat) : Option State :=
  match toggle_cursor_checked { s with cursor_disabled := 1 } with
  | none => none
  | some s1 =>
    let s2 :=
      if s1.term_x > 39 ∨ value = 0x0D ∨ value = 0x0A then
        if s1.term_y ≥ 23 then
          { s1 with term_x := 0, terminal_ram := scroll_up s1.terminal_ram }
        else
          { s1 with term_x := 0, term_y := (s1.term_y + 1) % 256 }
      else s1
    if value ≥ 0x20 ∧ value ≤ 0x7E then
      match store_checked s2.terminal_ram (cursor_index s2) (value &&& 0x3F) with
      | some g =>
        some { s2 with terminal_ram := g, term_x := (s2.term_x + 1) % 256, cursor_disabled := 0 }
      | none => none
    else some { s2 with cursor_disabled := 0 }

/-- The loop `for (i = 0; i < n; i++) terminal_write(value)`, its stores checked. -/
def terminal_write_n_checked (n : Nat) (s : State) (value : Nat) : Option State :=
  match n with
  | 0 => some s
  | k + 1 =>
    match terminal_write_checked s value with
    | none => none
    | some t => terminal_write_n_checked k t value

/-- The function `terminal_clearScreen`, its stores checked. -/
def terminal_clearScreen_checked (s : State) : Option State :=
  match terminal_write_n_checked (TERM_WIDTH * TERM_HEIGHT) s 32 with
  | none => none
  | some s1 => some { s1 with term_x := 0, term_y := 0 }

/-- One call, its stores checked.  `setCursorPosition` stores into no array and the
`ets_memset` of `reset_emulator` covers exactly `sizeof(terminal_ram)`. -/
def TermOp.apply_checked (s : State) : TermOp → Option State
  | .write value => terminal_write_checked s value
  | .toggle => toggle_cursor_checked s
  | .setCursor x y => some (setCursorPosition s x y)
  | .clearScreen => terminal_clearScreen_checked s
  | .reset => some (reset_emulator s)

/-- A sequence of calls, in order, defined while every store stays inside the array. -/
def run_checked (s : State) : List TermOp → Option State
  | [] => some s
  | op :: ops =>
    match op.apply_checked s with
    | none => none
    | some t => run_checked t ops

/-! ## Address decoding lemmas -/

theorem and_high_mask (a k : Nat) (hk : k ≤ 16) :
    a &&& (2 ^ 16 - 2 ^ k) = a % 2 ^ 16 / 2 ^ k * 2 ^ k := by
  have h : (2 : Nat) ^ 16 - 2 ^ k = 2 ^ k * (2 ^ (16 - k) - 1) := by
    rw [Nat.mul_sub, ← Nat.pow_add, Nat.add_sub_cancel' hk, Nat.mul_one]
  rw [h, Nat.mul_comm (a % 2 ^ 16 / 2 ^ k), ← Nat.shiftRight_eq_div_pow]
  apply Nat.eq_of_testBit_eq
  intro i
  simp only [Nat.testBit_and, Nat.testBit_mul_pow_two, Nat.testBit_two_pow_sub_one,
    Nat.testBit_shiftRight, Nat.testBit_mod_two_pow]
  by_cases h1 : k ≤ i
  · have e : k + (i - k) = i := by omega
    by_cases h2 : i < 16
    · have h3 : i - k < 16 - k := by omega
      simp [h1, h2, h3, e]
    · have h3 : ¬ (i - k < 16 - k) := by omega
      simp [h1, h2, h3, e]
  · simp [h1]

theorem and_F000 (a : Nat) : a &&& 0xF000 = a % 65536 / 4096 * 4096 :=
  and_high_mask a 12 (by decide)

theorem and_FFF0 (a : Nat) : a &&& 0xFFF0 = a % 65536 / 16 * 16 :=
  and_high_mask a 4 (by decide)

theorem and_FF00 (a : Nat) : a &&& 0xFF00 = a % 65536 / 256 * 256 :=
  and_high_mask a 8 (by decide)

/-- The alias window test of the bus selects exactly 0xE000..0xEFFF. -/
theorem alias_window_iff (a : Nat) (h : a < 65536) :
    a &&& 0xF000 = 0xE000 ↔ 0xE000 ≤ a ∧ a ≤ 0xEFFF := by
  rw [and_F000]; omega

/-- The I/O window test of `read6502` selects exactly 0xD010..0xD01F. -/
theorem io_window_iff (a : Nat) (h : a < 65536) :
    a &&& 0xFFF0 = 0xD010 ↔ 0xD010 ≤ a ∧ a ≤ 0xD01F := by
  rw [and_FFF0]; omega

/-- The monitor ROM test of `read6502` selects exactly 0xFF00..0xFFFF. -/
theorem rom_window_iff (a : Nat) (h : a < 65536) :
    a &&& 0xFF00 = 0xFF00 ↔ 0xFF00 ≤ a := by
  rw [and_FF00]; omega


/-! ## Bus lemmas, one per address range -/

theorem read6502_ram (woz_monitor : Nat → Nat) (s : State) (a : Nat) (h : a < 0x5000) :
    read6502 woz_monitor s a = (some (s.computer_ram a), s) := by
  have h1 : a < RAM_SIZE := h
  unfold read6502
  rw [if_pos h1]

theorem read6502_alias (woz_monitor : Nat → Nat) (s : State) (a : Nat)
    (h1 : 0xE000 ≤ a) (h2 : a ≤ 0xEFFF) :
    read6502 woz_monitor s a = (some (s.computer_ram (a - 0xA000)), s) := by
  have hw : a &&& 0xF000 = 0xE000 := (alias_window_iff a (by omega)).2 ⟨h1, h2⟩
  have hn : ¬ a < RAM_SIZE := by unfold RAM_SIZE; omega
  unfold read6502
  rw [if_neg hn, if_pos hw]

theorem read6502_keyboard (woz_monitor : Nat → Nat) (s : State) :
    read6502 woz_monitor s 0xD010 =
      (some s.pia.keyboard_register,
       { s with pia := { s.pia with keyboard_control := 0x00 } }) := by
  rfl

theorem read6502_rom (woz_monitor : Nat → Nat) (s : State) (a : Nat)
    (h1 : 0xFF00 ≤ a) (h2 : a < 65536) :
    read6502 woz_monitor s a = (some (woz_monitor (a - 0xFF00)), s) := by
  have hn : ¬ a < RAM_SIZE := by unfold RAM_SIZE; omega
  have hw : ¬ a &&& 0xF000 = 0xE000 := by rw [alias_window_iff a h2]; omega
  have hio : ¬ a &&& 0xFFF0 = 0xD010 := by rw [io_window_iff a h2]; omega
  have hr : a &&& 0xFF00 = 0xFF00 := (rom_window_iff a h2).2 h1
  unfold read6502
  rw [if_neg hn, if_neg hw, if_neg hio, if_pos hr]

theorem read6502_unmapped (woz_monitor : Nat → Nat) (s : State) (a : Nat)
    (h0 : 0x5000 ≤ a) (h1 : a < 0xFF00) (hal : ¬ (0xE000 ≤ a ∧ a ≤ 0xEFFF))
    (hio : ¬ (0xD010 ≤ a ∧ a ≤ 0xD01F)) :
    read6502 woz_monitor s a = (some 0xff, s) := by
  have h2 : a < 65536 := by omega
  have hn : ¬ a < RAM_SIZE := by unfold RAM_SIZE; omega
  have hw : ¬ a &&& 0xF000 = 0xE000 := by rw [alias_window_iff a h2]; exact hal
  have hio1 : ¬ a &&& 0xFFF0 = 0xD010 := by rw [io_window_iff a h2]; exact hio
  have hr : ¬ a &&& 0xFF00 = 0xFF00 := by rw [rom_window_iff a h2]; omega
  unfold read6502
  rw [if_neg hn, if_neg hw, if_neg hio1, if_neg hr]

theorem write6502_ram (s : State) (a v : Nat) (h : a < 0x5000) :
    write6502 s a v = { s with computer_ram := store s.computer_ram a v } := by
  have h1 : a < RAM_SIZE := h
  unfold write6502
  rw [if_pos h1]

theorem write6502_alias (s : State) (a v : Nat) (h1 : 0xE000 ≤ a) (h2 : a ≤ 0xEFFF) :
    write6502 s a v = { s with computer_ram := store s.computer_ram (a - 0xA000) v } := by
  have hw : a &&& 0xF000 = 0xE000 := (alias_window_iff a (by omega)).2 ⟨h1, h2⟩
  have hn : ¬ a < RAM_SIZE := by unfold RAM_SIZE; omega
  unfold write6502
  rw [if_neg hn, if_pos hw]

theorem write6502_keyboard (s : State) (v : Nat) :
    write6502 s 0xD010 v =
      { s with pia := { s.pia with keyboard_register := v, keyboard_control := 0xFF } } := by
  rfl

theorem write6502_discard (s : State) (a v : Nat) (h0 : 0x5000 ≤ a) (h2 : a < 65536)
    (hal : ¬ (0xE000 ≤ a ∧ a ≤ 0xEFFF)) (h10 : a ≠ 0xD010) (h12 : a ≠ 0xD012) :
    write6502 s a v = s := by
  have hn : ¬ a < RAM_SIZE := by unfold RAM_SIZE; omega
  have hw : ¬ a &&& 0xF000 = 0xE000 := by rw [alias_window_iff a h2]; exact hal
  unfold write6502
  rw [if_neg hn, if_neg hw, if_neg h10, if_neg h12]

theorem store_same (m : Nat → Nat) (i v : Nat) : store m i v i = v := by
  simp [store]

theorem store_other (m : Nat → Nat) (i v j : Nat) (h : j ≠ i) : store m i v j = m j := by
  simp [store, h]

/-! ## Memory bus: read after write, aliasing, unmapped addresses -/

/-- C1: a byte written at an address `a` below 0x5000 is read back there; for `b` in the
alias window 0xE000..0xEFFF a byte written at `b` is read back at `b - 0xA000` and
conversely, and both addresses read the same byte in every state. -/
theorem ram_write_read_and_alias (woz_monitor : Nat → Nat) (s : State) (v a b : Nat)
    (ha : a < 0x5000) (hb1 : 0xE000 ≤ b) (hb2 : b ≤ 0xEFFF) :
    (read6502 woz_monitor (write6502 s a v) a).1 = some v ∧
    (read6502 woz_monitor (write6502 s b v) (b - 0xA000)).1 = some v ∧
    (read6502 woz_monitor (write6502 s (b - 0xA000) v) b).1 = some v ∧
    (read6502 woz_monitor s b).1 = (read6502 woz_monitor s (b - 0xA000)).1 := by
  have hl : b - 0xA000 < 0x5000 := by omega
  refine ⟨?_, ?_, ?_, ?_⟩
  · rw [write6502_ram s a v ha, read6502_ram _ _ a ha]
    simp [store_same]
  · rw [write6502_alias s b v hb1 hb2, read6502_ram _ _ _ hl]
    simp [store_same]
  · rw [write6502_ram s _ v hl, read6502_alias _ _ b hb1 hb2]
    simp [store_same]
  · rw [read6502_alias _ _ b hb1 hb2, read6502_ram _ _ _ hl]

theorem ram_write_read_and_alias_witness :
    (0x1234 < 0x5000 ∧ 0xE000 ≤ 0xE123 ∧ 0xE123 ≤ 0xEFFF) ∧
    (read6502 (fun i => i) (write6502 power_on 0x1234 0x41) 0x1234).1 = some 0x41 ∧
    (read6502 (fun i => i) (write6502 power_on 0xE123 0x41) (0xE123 - 0xA000)).1 = some 0x41 ∧
    (read6502 (fun i => i) (write6502 power_on (0xE123 - 0xA000) 0x41) 0xE123).1 = some 0x41 ∧
    (read6502 (fun i => i) power_on 0xE123).1 =
      (read6502 (fun i => i) power_on (0xE123 - 0xA000)).1 :=
  ⟨by decide,
   ram_write_read_and_alias (fun i => i) power_on 0x41 0x1234 0xE123 (by decide) (by decide)
     (by decide)⟩

/-- C2: for an address `a` from 0x5000 on, outside the alias window and the I/O window, a
write changes nothing of the state, a read changes nothing and returns the monitor ROM byte
`woz_monitor[a - 0xFF00]` from 0xFF00 on and 0xFF below; hence a read of a monitor ROM
address `b` after such a write, in particular a write to the ROM range, still returns
`woz_monitor[b - 0xFF00]`. -/
theorem unmapped_and_rom_access (woz_monitor : Nat → Nat) (s : State) (a v b : Nat)
    (h0 : 0x5000 ≤ a) (h16 : a < 65536) (hal : ¬ (0xE000 ≤ a ∧ a ≤ 0xEFFF))
    (hio : ¬ (0xD010 ≤ a ∧ a ≤ 0xD01F)) (hb : 0xFF00 ≤ b) (hb16 : b < 65536) :
    write6502 s a v = s ∧
    read6502 woz_monitor s a =
      (some (if 0xFF00 ≤ a then woz_monitor (a - 0xFF00) else 0xFF), s) ∧
    read6502 woz_monitor (write6502 s a v) b = (some (woz_monitor (b - 0xFF00)), s) ∧
    read6502 woz_monitor s b = (some (woz_monitor (b - 0xFF00)), s) := by
  have hwr : write6502 s a v = s :=
    write6502_discard s a v h0 h16 hal (by omega) (by omega)
  refine ⟨hwr, ?_, ?_, read6502_rom _ _ b hb hb16⟩
  · by_cases hr : 0xFF00 ≤ a
    · rw [read6502_rom _ _ a hr h16, if_pos hr]
    · rw [read6502_unmapped _ _ a h0 (by omega) hal hio, if_neg hr]
  · rw [hwr, read6502_rom _ _ b hb hb16]

theorem unmapped_and_rom_access_witness :
    (0x5000 ≤ 0xFF10 ∧ 0xFF10 < 65536 ∧ ¬ (0xE000 ≤ 0xFF10 ∧ 0xFF10 ≤ 0xEFFF) ∧
      ¬ (0xD010 ≤ 0xFF10 ∧ 0xFF10 ≤ 0xD01F) ∧ 0xFF00 ≤ 0xFF20 ∧ 0xFF20 < 65536) ∧
    write6502 power_on 0xFF10 7 = power_on ∧
    read6502 (fun i => i) power_on 0xFF10 =
      (some (if 0xFF00 ≤ 0xFF10 then (fun i => i) (0xFF10 - 0xFF00) else 0xFF), power_on) ∧
    read6502 (fun i => i) (write6502 power_on 0xFF10 7) 0xFF20 =
      (some ((fun i => i) (0xFF20 - 0xFF00)), power_on) ∧
    read6502 (fun i => i) power_on 0xFF20 = (some ((fun i => i) (0xFF20 - 0xFF00)), power_on) :=
  ⟨by decide,
   unmapped_and_rom_access (fun i => i) power_on 0xFF10 7 0xFF20 (by decide) (by decide)
     (by decide) (by decide) (by decide) (by decide)⟩


/-! ## Telnet input and the keyboard mailbox -/

theorem or_0x80_mod (c : Nat) (h : c < 256) : (c ||| 0x80) % 256 = c ||| 0x80 :=
  Nat.mod_eq_of_lt (Nat.or_lt_two_pow (n := 8) h (by decide))

theorem xor_0x20_lt (c : Nat) (h : c < 256) : c ^^^ 0x20 < 256 :=
  Nat.xor_lt_two_pow (n := 8) h (by decide)

/-- The receive handler deposits the filtered first byte of the buffer. -/
theorem dataRecvCallback_deposit (s : State) (b : Nat) (rest : List Nat) (hb : b < 256)
    (h3 : b ≠ 0x03) :
    dataRecvCallback s (b :: rest) =
      { s with pia := { s.pia with keyboard_register := spec_filter b ||| 0x80
                                   keyboard_control := 0xFF } } := by
  have hg : (b :: rest).getD 0 0 = b := rfl
  unfold dataRecvCallback spec_filter
  by_cases hl : b > 0x60 ∧ b < 0x7B
  · have hl2 : 0x61 ≤ b ∧ b ≤ 0x7A := by omega
    simp only [hg]
    rw [if_pos hl, if_pos hl2, write6502_keyboard, or_0x80_mod _ (xor_0x20_lt b hb)]
  · have hl2 : ¬ (0x61 ≤ b ∧ b ≤ 0x7A) := by omega
    simp only [hg]
    rw [if_neg hl, if_neg hl2]
    by_cases hA : b = 0x0A
    · rw [if_pos hA, if_pos hA, write6502_keyboard, or_0x80_mod 0x0D (by decide)]
    · rw [if_neg hA, if_neg hA]
      by_cases hD : b = 0x7F
      · rw [if_pos hD, if_pos hD, write6502_keyboard, or_0x80_mod 0x5F (by decide)]
      · rw [if_neg hD, if_neg hD, if_neg h3, write6502_keyboard, or_0x80_mod b hb]

theorem spec_filter_idem (b : Nat) : spec_filter (spec_filter b) = spec_filter b := by
  unfold spec_filter
  by_cases hl : 0x61 ≤ b ∧ b ≤ 0x7A
  · rw [if_pos hl]
    obtain ⟨h1, h2⟩ := hl
    interval_cases b <;> rfl
  · rw [if_neg hl]
    by_cases hA : b = 0x0A
    · subst hA; rfl
    · rw [if_neg hA]
      by_cases hD : b = 0x7F
      · subst hD; rfl
      · rw [if_neg hD, if_neg hl, if_neg hA, if_neg hD]

theorem spec_filter_upper (u : Nat) (h1 : 0x41 ≤ u) (h2 : u ≤ 0x5A) : spec_filter u = u := by
  unfold spec_filter
  rw [if_neg (by omega), if_neg (by omega), if_neg (by omega)]

/-- C3: after two key bytes (neither 0x03) have gone through the telnet input path, the state
is what the second byte alone would have left, `keyboard_control` is 0xFF, and the next read
of 0xD010 returns the filtered second byte with the top bit set and changes nothing but
`keyboard_control`, which becomes 0x00. -/
theorem keyboard_mailbox_last_wins (woz_monitor : Nat → Nat) (s : State) (b1 b2 : Nat)
    (r1 r2 : List Nat) (h1 : b1 < 256) (n1 : b1 ≠ 0x03) (h2 : b2 < 256) (n2 : b2 ≠ 0x03) :
    dataRecvCallback (dataRecvCallback s (b1 :: r1)) (b2 :: r2) = dataRecvCallback s (b2 :: r2) ∧
    (dataRecvCallback (dataRecvCallback s (b1 :: r1)) (b2 :: r2)).pia.keyboard_control = 0xFF ∧
    read6502 woz_monitor (dataRecvCallback (dataRecvCallback s (b1 :: r1)) (b2 :: r2)) 0xD010 =
      (some (spec_filter b2 ||| 0x80),
       { s with pia := { s.pia with keyboard_register := spec_filter b2 ||| 0x80
                                    keyboard_control := 0x00 } }) := by
  rw [dataRecvCallback_deposit s b1 r1 h1 n1, dataRecvCallback_deposit _ b2 r2 h2 n2,
    dataRecvCallback_deposit s b2 r2 h2 n2, read6502_keyboard]
  exact ⟨rfl, rfl, rfl⟩

theorem keyboard_mailbox_last_wins_witness :
    (0x61 < 256 ∧ 0x61 ≠ 0x03 ∧ 0x0A < 256 ∧ 0x0A ≠ 0x03) ∧
    dataRecvCallback (dataRecvCallback power_on (0x61 :: [])) (0x0A :: []) =
      dataRecvCallback power_on (0x0A :: []) ∧
    (dataRecvCallback (dataRecvCallback power_on (0x61 :: [])) (0x0A :: [])).pia.keyboard_control
      = 0xFF ∧
    read6502 (fun i => i) (dataRecvCallback (dataRecvCallback power_on (0x61 :: [])) (0x0A :: []))
        0xD010 =
      (some (spec_filter 0x0A ||| 0x80),
       { power_on with pia := { power_on.pia with keyboard_register := spec_filter 0x0A ||| 0x80
                                                  keyboard_control := 0x00 } }) :=
  ⟨by decide,
   keyboard_mailbox_last_wins (fun i => i) power_on 0x61 0x0A [] [] (by decide) (by decide)
     (by decide) (by decide)⟩

/-- C4: for an input byte `b` other than 0x03 the receive handler leaves
`keyboard_register = f(b) | 0x80` and `keyboard_control = 0xFF` and changes nothing else,
where `f` is the filter of the spec; an uppercase letter `u` is left as it is by `f`, and `f`
is idempotent. -/
theorem telnet_filter_deposit (s : State) (b u : Nat) (rest : List Nat) (hb : b < 256)
    (h3 : b ≠ 0x03) (hu1 : 0x41 ≤ u) (hu2 : u ≤ 0x5A) :
    dataRecvCallback s (b :: rest) =
      { s with pia := { s.pia with keyboard_register := spec_filter b ||| 0x80
                                   keyboard_control := 0xFF } } ∧
    spec_filter u = u ∧
    dataRecvCallback s (u :: rest) =
      { s with pia := { s.pia with keyboard_register := u ||| 0x80
                                   keyboard_control := 0xFF } } ∧
    spec_filter (spec_filter b) = spec_filter b := by
  refine ⟨dataRecvCallback_deposit s b rest hb h3, spec_filter_upper u hu1 hu2, ?_,
    spec_filter_idem b⟩
  rw [dataRecvCallback_deposit s u rest (by omega) (by omega), spec_filter_upper u hu1 hu2]

theorem telnet_filter_deposit_witness :
    (0x7F < 256 ∧ 0x7F ≠ 0x03 ∧ 0x41 ≤ 0x51 ∧ 0x51 ≤ 0x5A) ∧
    dataRecvCallback power_on (0x7F :: [0x62]) =
      { power_on with pia := { power_on.pia with keyboard_register := spec_filter 0x7F ||| 0x80
                                                 keyboard_control := 0xFF } } ∧
    spec_filter 0x51 = 0x51 ∧
    dataRecvCallback power_on (0x51 :: [0x62]) =
      { power_on with pia := { power_on.pia with keyboard_register := 0x51 ||| 0x80
                                                 keyboard_control := 0xFF } } ∧
    spec_filter (spec_filter 0x7F) = spec_filter 0x7F :=
  ⟨by decide,
   telnet_filter_deposit power_on 0x7F 0x51 [0x62] (by decide) (by decide) (by decide)
     (by decide)⟩

/-- C5: when the receive handler is given the byte 0x03, afterwards every RAM byte below
0x5000 is 0xFF, every one of the 960 terminal cells is 0x20, the cursor is at column 0, row 0,
and the PIA registers, `keyboard_register` and `keyboard_control` among them, are what they
were. -/
theorem ctrl_c_reset (s : State) (rest : List Nat) (i j : Nat) (hi : i < 0x5000)
    (hj : j < 960) :
    (dataRecvCallback s (0x03 :: rest)).computer_ram i = 0xFF ∧
    (dataRecvCallback s (0x03 :: rest)).terminal_ram j = 0x20 ∧
    (dataRecvCallback s (0x03 :: rest)).term_x = 0 ∧
    (dataRecvCallback s (0x03 :: rest)).term_y = 0 ∧
    (dataRecvCallback s (0x03 :: rest)).pia = s.pia ∧
    (dataRecvCallback s (0x03 :: rest)).pia.keyboard_register = s.pia.keyboard_register ∧
    (dataRecvCallback s (0x03 :: rest)).pia.keyboard_control = s.pia.keyboard_control := by
  have h : dataRecvCallback s (0x03 :: rest) = reset_emulator s := rfl
  rw [h]
  have hi1 : i < RAM_SIZE := hi
  have hj1 : j < TERM_WIDTH * TERM_HEIGHT := hj
  refine ⟨?_, ?_, rfl, rfl, rfl, rfl, rfl⟩
  · show memset s.computer_ram 0 0xff RAM_SIZE i = 0xFF
    unfold memset
    rw [if_pos ⟨Nat.zero_le _, by omega⟩]
  · show memset s.terminal_ram 0 0b100000 (TERM_WIDTH * TERM_HEIGHT) j = 0x20
    unfold memset
    rw [if_pos ⟨Nat.zero_le _, by omega⟩]

theorem ctrl_c_reset_witness :
    (0x4FFF < 0x5000 ∧ 959 < 960) ∧
    (dataRecvCallback power_on (0x03 :: [])).computer_ram 0x4FFF = 0xFF ∧
    (dataRecvCallback power_on (0x03 :: [])).terminal_ram 959 = 0x20 ∧
    (dataRecvCallback power_on (0x03 :: [])).term_x = 0 ∧
    (dataRecvCallback power_on (0x03 :: [])).term_y = 0 ∧
    (dataRecvCallback power_on (0x03 :: [])).pia = power_on.pia ∧
    (dataRecvCallback power_on (0x03 :: [])).pia.keyboard_register =
      power_on.pia.keyboard_register ∧
    (dataRecvCallback power_on (0x03 :: [])).pia.keyboard_control =
      power_on.pia.keyboard_control :=
  ⟨by decide, ctrl_c_reset power_on [] 0x4FFF 959 (by decide) (by decide)⟩


/-! ## TFTP loader -/

/-- The transfer cursor that a write-request stores: the address at 0x26/0x27, moved down by
0xA000 when it is 0xE000 or above. -/
theorem tftp_write_request (s : State) (wrq : List Nat) (hlen : 4 ≤ wrq.length)
    (hop : wrq.getD 1 0 = 0x02) :
    (tftp_server_recv s wrq).1 =
      { s with load_target_start :=
          if ((s.computer_ram 0x27 <<< 8) + s.computer_ram 0x26) % 65536 ≥ 0xE000 then
            (((s.computer_ram 0x27 <<< 8) + s.computer_ram 0x26) % 65536 - 0xA000) % 65536
          else ((s.computer_ram 0x27 <<< 8) + s.computer_ram 0x26) % 65536 } := by
  unfold tftp_server_recv
  simp only []
  rw [if_neg (by omega), if_pos hop]

theorem tftp_data (s : State) (b0 h l : Nat) (p : List Nat) :
    tftp_server_recv s (b0 :: 0x03 :: h :: l :: p) =
      ({ s with
         computer_ram :=
           memcpy_from s.computer_ram s.load_target_start (b0 :: 0x03 :: h :: l :: p) 4 p.length
         load_target_start := (s.load_target_start + p.length) % 65536 },
       some [0x00, 0x04, h, l]) := by
  unfold tftp_server_recv
  have hlen : (b0 :: 0x03 :: h :: l :: p).length = p.length + 4 := by simp
  simp only [hlen]
  rw [if_neg (by omega)]
  simp

/-- C6: after a write-request (at least 4 bytes, second byte 2) and one data packet with
bytes 2-3 `(h, l)` and payload `p`, where `t` is the cursor the write-request stored and
`t + |p| <= 0x5000`: RAM holds `p[i]` at `t + i` for `i < |p|`, every other RAM byte is as it
was, the cursor is `t + |p|`, and the response to the data packet is `00 04 h l`. -/
theorem tftp_load (s : State) (wrq : List Nat) (b0 h l : Nat) (p : List Nat) (i j : Nat)
    (hlen : 4 ≤ wrq.length) (hop : wrq.getD 1 0 = 0x02)
    (hfit : (tftp_server_recv s wrq).1.load_target_start + p.length ≤ 0x5000)
    (hi : i < p.length)
    (hj : j < (tftp_server_recv s wrq).1.load_target_start ∨
      (tftp_server_recv s wrq).1.load_target_start + p.length ≤ j) :
    (tftp_server_recv (tftp_server_recv s wrq).1 (b0 :: 0x03 :: h :: l :: p)).1.computer_ram
        ((tftp_server_recv s wrq).1.load_target_start + i) = p.getD i 0 ∧
    (tftp_server_recv (tftp_server_recv s wrq).1 (b0 :: 0x03 :: h :: l :: p)).1.computer_ram j
      = s.computer_ram j ∧
    (tftp_server_recv (tftp_server_recv s wrq).1 (b0 :: 0x03 :: h :: l :: p)).1.load_target_start
      = (tftp_server_recv s wrq).1.load_target_start + p.length ∧
    (tftp_server_recv (tftp_server_recv s wrq).1 (b0 :: 0x03 :: h :: l :: p)).2
      = some [0x00, 0x04, h, l] := by
  have hram : (tftp_server_recv s wrq).1.computer_ram = s.computer_ram := by
    rw [tftp_write_request s wrq hlen hop]
  rw [tftp_data]
  refine ⟨?_, ?_, ?_, rfl⟩
  · show memcpy_from _ _ _ 4 p.length _ = _
    unfold memcpy_from
    rw [if_pos ⟨by omega, by omega⟩]
    have e : 4 + ((tftp_server_recv s wrq).1.load_target_start + i
        - (tftp_server_recv s wrq).1.load_target_start) = i + 4 := by omega
    rw [e]
    simp [List.getD]
  · show memcpy_from _ _ _ 4 p.length _ = _
    unfold memcpy_from
    rw [if_neg (by omega), hram]
  · show ((tftp_server_recv s wrq).1.load_target_start + p.length) % 65536 = _
    exact Nat.mod_eq_of_lt (by omega)

theorem tftp_load_witness :
    (4 ≤ [0x00, 0x02, 0x61, 0x00].length ∧ [0x00, 0x02, 0x61, 0x00].getD 1 0 = 0x02 ∧
      (tftp_server_recv power_on [0x00, 0x02, 0x61, 0x00]).1.load_target_start
        + [0x41, 0x42].length ≤ 0x5000 ∧
      1 < [0x41, 0x42].length ∧
      ((5 : Nat) < (tftp_server_recv power_on [0x00, 0x02, 0x61, 0x00]).1.load_target_start ∨
        (tftp_server_recv power_on [0x00, 0x02, 0x61, 0x00]).1.load_target_start
          + [0x41, 0x42].length ≤ 5)) ∧
    (tftp_server_recv (tftp_server_recv power_on [0x00, 0x02, 0x61, 0x00]).1
        (0x00 :: 0x03 :: 0x00 :: 0x01 :: [0x41, 0x42])).1.computer_ram
        ((tftp_server_recv power_on [0x00, 0x02, 0x61, 0x00]).1.load_target_start + 1)
      = [0x41, 0x42].getD 1 0 ∧
    (tftp_server_recv (tftp_server_recv power_on [0x00, 0x02, 0x61, 0x00]).1
        (0x00 :: 0x03 :: 0x00 :: 0x01 :: [0x41, 0x42])).1.computer_ram 5
      = power_on.computer_ram 5 ∧
    (tftp_server_recv (tftp_server_recv power_on [0x00, 0x02, 0x61, 0x00]).1
        (0x00 :: 0x03 :: 0x00 :: 0x01 :: [0x41, 0x42])).1.load_target_start
      = (tftp_server_recv power_on [0x00, 0x02, 0x61, 0x00]).1.load_target_start
        + [0x41, 0x42].length ∧
    (tftp_server_recv (tftp_server_recv power_on [0x00, 0x02, 0x61, 0x00]).1
        (0x00 :: 0x03 :: 0x00 :: 0x01 :: [0x41, 0x42])).2
      = some [0x00, 0x04, 0x00, 0x01] :=
  ⟨by decide,
   tftp_load power_on [0x00, 0x02, 0x61, 0x00] 0x00 0x00 0x01 [0x41, 0x42] 1 5 (by decide)
     (by decide) (by decide) (by decide) (by decide)⟩


/-! ## Terminal driver: single calls -/

theorem or_one_ne_zero (n : Nat) : n ||| 1 ≠ 0 := by
  intro h
  have h0 := congrArg (fun k => Nat.testBit k 0) h
  simp at h0

/-- The first step of `terminal_write`: with the cursor disabled, `toggle_cursor` blanks the
cursor cell. -/
theorem toggle_cursor_disabled (s : State) :
    toggle_cursor { s with cursor_disabled := 1 } =
      { s with
        cursor_disabled := 1
        cursor_visible := s.cursor_visible ^^^ 1
        terminal_ram := store s.terminal_ram (cursor_index s) 0x20 } := by
  unfold toggle_cursor
  simp only [if_pos (or_one_ne_zero (s.cursor_visible ^^^ 1))]
  rfl

/-- A printable byte written with the column at most 39: no wrap. -/
theorem terminal_write_printable (s : State) (v : Nat) (hx : s.term_x ≤ 39)
    (hv1 : 0x20 ≤ v) (hv2 : v ≤ 0x7E) :
    terminal_write s v =
      { s with
        cursor_disabled := 0
        cursor_visible := s.cursor_visible ^^^ 1
        terminal_ram := store (store s.terminal_ram (cursor_index s) 0x20) (cursor_index s)
          (v &&& 0x3F)
        term_x := s.term_x + 1 } := by
  unfold terminal_write
  rw [toggle_cursor_disabled]
  have h1 : ¬ (s.term_x > 39 ∨ v = 0x0D ∨ v = 0x0A) := by omega
  have h2 : v ≥ 0x20 ∧ v ≤ 0x7E := ⟨hv1, hv2⟩
  have h3 : (s.term_x + 1) % 256 = s.term_x + 1 := Nat.mod_eq_of_lt (by omega)
  simp only [if_neg h1, if_pos h2, h3]
  rfl

/-- A printable byte written with the column above 39 on a row above the last: the cursor
moves to the start of the next row first. -/
theorem terminal_write_printable_wrap (s : State) (v : Nat) (hx : s.term_x > 39)
    (hy : s.term_y < 23) (hv1 : 0x20 ≤ v) (hv2 : v ≤ 0x7E) :
    terminal_write s v =
      { s with
        cursor_disabled := 0
        cursor_visible := s.cursor_visible ^^^ 1
        terminal_ram := store (store s.terminal_ram (cursor_index s) 0x20)
          ((s.term_y + 1) * TERM_WIDTH + 0) (v &&& 0x3F)
        term_x := 1
        term_y := s.term_y + 1 } := by
  unfold terminal_write
  rw [toggle_cursor_disabled]
  have h1 : s.term_x > 39 ∨ v = 0x0D ∨ v = 0x0A := Or.inl hx
  have h2 : v ≥ 0x20 ∧ v ≤ 0x7E := ⟨hv1, hv2⟩
  have h3 : (s.term_y + 1) % 256 = s.term_y + 1 := Nat.mod_eq_of_lt (by omega)
  have h4 : ¬ s.term_y ≥ 23 := by omega
  simp only [if_pos h1, if_pos h2, if_neg h4, h3]
  rfl
/-! ## Terminal driver: a run of printable bytes inside one row -/

theorem terminal_write_all_append (s : State) (l : List Nat) (c : Nat) :
    terminal_write_all s (l ++ [c]) = terminal_write (terminal_write_all s l) c := by
  unfold terminal_write_all
  rw [List.foldl_append]
  rfl

/-- Printable bytes that fit into the rest of the row are stored, masked to 6 bits, in
consecutive cells from the cursor cell on; the row does not change. -/
theorem terminal_write_all_row (cs : List Nat) :
    ∀ s : State, s.term_x + cs.length ≤ 40 → (∀ c ∈ cs, 0x20 ≤ c ∧ c ≤ 0x7E) →
      (terminal_write_all s cs).term_x = s.term_x + cs.length ∧
      (terminal_write_all s cs).term_y = s.term_y ∧
      ∀ j, (terminal_write_all s cs).terminal_ram j =
        if cursor_index s ≤ j ∧ j < cursor_index s + cs.length then
          cs.getD (j - cursor_index s) 0 &&& 0x3F
        else s.terminal_ram j := by
  induction cs with
  | nil =>
    intro s _ _
    refine ⟨rfl, rfl, fun j => ?_⟩
    rw [if_neg (by simp)]
    rfl
  | cons c cs ih =>
    intro s hx hp
    have hlen : (c :: cs).length = cs.length + 1 := rfl
    have hc := hp c (List.mem_cons_self c cs)
    have hstep : terminal_write_all s (c :: cs) = terminal_write_all (terminal_write s c) cs :=
      rfl
    rw [hstep, terminal_write_printable s c (by omega) hc.1 hc.2]
    have ih1 := ih
      { s with
        cursor_disabled := 0
        cursor_visible := s.cursor_visible ^^^ 1
        terminal_ram := store (store s.terminal_ram (cursor_index s) 0x20) (cursor_index s)
          (c &&& 0x3F)
        term_x := s.term_x + 1 }
      (by show s.term_x + 1 + cs.length ≤ 40; omega)
      (fun d hd => hp d (List.mem_cons_of_mem c hd))
    obtain ⟨hx1, hy1, hg1⟩ := ih1
    refine ⟨?_, hy1, fun j => ?_⟩
    · rw [hx1]; show s.term_x + 1 + cs.length = s.term_x + (cs.length + 1); omega
    · rw [hg1 j]
      have hidx : cursor_index
          { s with
            cursor_disabled := 0
            cursor_visible := s.cursor_visible ^^^ 1
            terminal_ram := store (store s.terminal_ram (cursor_index s) 0x20) (cursor_index s)
              (c &&& 0x3F)
            term_x := s.term_x + 1 } = cursor_index s + 1 := by
        unfold cursor_index
        show s.term_y * TERM_WIDTH + (s.term_x + 1) = s.term_y * TERM_WIDTH + s.term_x + 1
        omega
      rw [hidx, hlen]
      by_cases h1 : cursor_index s + 1 ≤ j ∧ j < cursor_index s + 1 + cs.length
      · rw [if_pos h1, if_pos (by omega)]
        have e : j - cursor_index s = (j - (cursor_index s + 1)) + 1 := by omega
        rw [e]
        rfl
      · rw [if_neg h1]
        by_cases h2 : j = cursor_index s
        · rw [if_pos (by omega), h2, Nat.sub_self]
          show store _ _ _ _ = _
          rw [store_same]
          rfl
        · rw [if_neg (by omega)]
          show store _ _ _ _ = _
          rw [store_other _ _ _ _ h2, store_other _ _ _ _ h2]

/-- C7: from column 0 of a row `r < 23`, 41 printable bytes give one row advance: the cursor
ends at row `r + 1`, column 1, row `r` holds the first 40 bytes masked to 6 bits, the cell at
row `r + 1`, column 0 holds the 41st byte masked to 6 bits, and every other cell is
unchanged. -/
theorem line_wrap (s : State) (cs : List Nat) (r i j : Nat) (hx : s.term_x = 0)
    (hy : s.term_y = r) (hr : r < 23) (hlen : cs.length = 41)
    (hp : ∀ c ∈ cs, 0x20 ≤ c ∧ c ≤ 0x7E) (hi : i < 40)
    (hj : j < r * 40 ∨ r * 40 + 40 < j) :
    (terminal_write_all s cs).term_y = r + 1 ∧
    (terminal_write_all s cs).term_x = 1 ∧
    (terminal_write_all s cs).terminal_ram (r * 40 + i) = cs.getD i 0 &&& 0x3F ∧
    (terminal_write_all s cs).terminal_ram ((r + 1) * 40 + 0) = cs.getD 40 0 &&& 0x3F ∧
    (terminal_write_all s cs).terminal_ram j = s.terminal_ram j := by
  have hsplit : cs = cs.take 40 ++ [cs.getD 40 0] := by
    have h1 : cs.drop 40 = [cs.getD 40 0] := by
      have h2 : (cs.drop 40).length = 1 := by rw [List.length_drop]; omega
      match hd : cs.drop 40, h2 with
      | [x], _ =>
        have : cs.getD 40 0 = x := by
          have h3 := congrArg (fun l => l.getD 0 0) hd
          simp only [List.getD_eq_getElem?_getD, List.getElem?_drop] at h3
          simpa [List.getD_eq_getElem?_getD] using h3
        rw [this]
    conv => lhs; rw [← List.take_append_drop 40 cs, h1]
  have hlt : (cs.take 40).length = 40 := by rw [List.length_take]; omega
  have hpt : ∀ c ∈ cs.take 40, 0x20 ≤ c ∧ c ≤ 0x7E :=
    fun c hc => hp c (List.mem_of_mem_take hc)
  have hlast : 0x20 ≤ cs.getD 40 0 ∧ cs.getD 40 0 ≤ 0x7E := by
    apply hp
    have h40 : 40 < cs.length := by omega
    rw [List.getD_eq_getElem?_getD, List.getElem?_eq_getElem h40]
    exact List.getElem_mem h40
  obtain ⟨hx40, hy40, hg40⟩ := terminal_write_all_row (cs.take 40) s (by omega) hpt
  have hci : cursor_index s = r * 40 := by
    unfold cursor_index TERM_WIDTH
    rw [hx, hy]; rfl
  have hci40 : cursor_index (terminal_write_all s (cs.take 40)) = r * 40 + 40 := by
    unfold cursor_index TERM_WIDTH
    rw [hx40, hy40, hx, hy, hlt]
  have hfin : terminal_write_all s cs =
      terminal_write (terminal_write_all s (cs.take 40)) (cs.getD 40 0) := by
    conv => lhs; rw [hsplit]
    exact terminal_write_all_append _ _ _
  rw [hfin, terminal_write_printable_wrap _ _ (by omega) (by omega) hlast.1 hlast.2]
  have hrow : ((terminal_write_all s (cs.take 40)).term_y + 1) * TERM_WIDTH + 0
      = (r + 1) * 40 + 0 := by
    rw [hy40, hy]; rfl
  refine ⟨by show _ + 1 = _; rw [hy40, hy], rfl, ?_, ?_, ?_⟩
  · show store (store _ _ _) _ _ _ = _
    rw [hrow, hci40, store_other _ _ _ _ (by omega), store_other _ _ _ _ (by omega), hg40,
      hci, hlt, if_pos (by omega)]
    have e : r * 40 + i - r * 40 = i := by omega
    rw [e, List.getD_eq_getElem?_getD, List.getD_eq_getElem?_getD, List.getElem?_take_of_lt hi]
  · show store (store _ _ _) _ _ _ = _
    rw [hrow, store_same]
  · show store (store _ _ _) _ _ _ = _
    rw [hrow, hci40, store_other _ _ _ _ (by omega), store_other _ _ _ _ (by omega), hg40,
      hci, hlt, if_neg (by omega)]

theorem line_wrap_witness :
    (power_on.term_x = 0 ∧ power_on.term_y = 0 ∧ 0 < 23 ∧
      (List.replicate 41 0x41).length = 41 ∧
      (∀ c ∈ List.replicate 41 0x41, 0x20 ≤ c ∧ c ≤ 0x7E) ∧ 3 < 40 ∧
      ((100 : Nat) < 0 * 40 ∨ 0 * 40 + 40 < 100)) ∧
    (terminal_write_all power_on (List.replicate 41 0x41)).term_y = 0 + 1 ∧
    (terminal_write_all power_on (List.replicate 41 0x41)).term_x = 1 ∧
    (terminal_write_all power_on (List.replicate 41 0x41)).terminal_ram (0 * 40 + 3)
      = (List.replicate 41 0x41).getD 3 0 &&& 0x3F ∧
    (terminal_write_all power_on (List.replicate 41 0x41)).terminal_ram ((0 + 1) * 40 + 0)
      = (List.replicate 41 0x41).getD 40 0 &&& 0x3F ∧
    (terminal_write_all power_on (List.replicate 41 0x41)).terminal_ram 100
      = power_on.terminal_ram 100 :=
  ⟨by decide,
   line_wrap power_on (List.replicate 41 0x41) 0 3 100 (by decide) (by decide) (by decide)
     (by decide) (by decide) (by decide) (by decide)⟩


/-! ## Terminal driver: newline and scroll -/

/-- After the scroll, a cell of rows 0..22 holds what the cell below it held. -/
theorem scroll_up_upper (g : Nat → Nat) (i c : Nat) (hi : i < 23) (hc : c < 40) :
    scroll_up g (i * 40 + c) = g ((i + 1) * 40 + c) := by
  unfold scroll_up memset memcpy_within TERM_WIDTH TERM_HEIGHT
  rw [if_neg (by omega), if_pos (by omega)]
  congr 1
  omega

/-- After the scroll, row 23 is blank. -/
theorem scroll_up_last (g : Nat → Nat) (c : Nat) (hc : c < 40) :
    scroll_up g (23 * 40 + c) = 0x20 := by
  unfold scroll_up memset TERM_WIDTH TERM_HEIGHT
  rw [if_pos (by omega)]
  rfl

/-- CR or LF on a row above the last one. -/
theorem terminal_write_newline (s : State) (v : Nat) (hv : v = 0x0D ∨ v = 0x0A)
    (hy : s.term_y < 23) :
    terminal_write s v =
      { s with
        cursor_disabled := 0
        cursor_visible := s.cursor_visible ^^^ 1
        terminal_ram := store s.terminal_ram (cursor_index s) 0x20
        term_x := 0
        term_y := s.term_y + 1 } := by
  unfold terminal_write
  rw [toggle_cursor_disabled]
  have h1 : s.term_x > 39 ∨ v = 0x0D ∨ v = 0x0A := Or.inr hv
  have h2 : ¬ (v ≥ 0x20 ∧ v ≤ 0x7E) := by omega
  have h3 : (s.term_y + 1) % 256 = s.term_y + 1 := Nat.mod_eq_of_lt (by omega)
  have h4 : ¬ s.term_y ≥ 23 := by omega
  simp only [if_pos h1, if_neg h2, if_neg h4, h3]

/-- CR or LF on the last row (or below it): the grid scrolls. -/
theorem terminal_write_newline_scroll (s : State) (v : Nat) (hv : v = 0x0D ∨ v = 0x0A)
    (hy : 23 ≤ s.term_y) :
    terminal_write s v =
      { s with
        cursor_disabled := 0
        cursor_visible := s.cursor_visible ^^^ 1
        terminal_ram := scroll_up (store s.terminal_ram (cursor_index s) 0x20)
        term_x := 0 } := by
  unfold terminal_write
  rw [toggle_cursor_disabled]
  have h1 : s.term_x > 39 ∨ v = 0x0D ∨ v = 0x0A := Or.inr hv
  have h2 : ¬ (v ≥ 0x20 ∧ v ≤ 0x7E) := by omega
  have h4 : s.term_y ≥ 23 := hy
  simp only [if_pos h1, if_neg h2, if_pos h4]

/-- A printable byte written with the column above 39 on the last row (or below it): the
grid scrolls, then the byte is stored at column 0. -/
theorem terminal_write_printable_scroll (s : State) (v : Nat) (hx : s.term_x > 39)
    (hy : 23 ≤ s.term_y) (hv1 : 0x20 ≤ v) (hv2 : v ≤ 0x7E) :
    terminal_write s v =
      { s with
        cursor_disabled := 0
        cursor_visible := s.cursor_visible ^^^ 1
        terminal_ram := store (scroll_up (store s.terminal_ram (cursor_index s) 0x20))
          (s.term_y * TERM_WIDTH + 0) (v &&& 0x3F)
        term_x := 1 } := by
  unfold terminal_write
  rw [toggle_cursor_disabled]
  have h1 : s.term_x > 39 ∨ v = 0x0D ∨ v = 0x0A := Or.inl hx
  have h2 : v ≥ 0x20 ∧ v ≤ 0x7E := ⟨hv1, hv2⟩
  have h4 : s.term_y ≥ 23 := hy
  simp only [if_pos h1, if_pos h2, if_pos h4]
  rfl

/-! ## The cursor under sequences of terminal calls -/

theorem terminal_write_cursor_bound (s : State) (v : Nat) (hx : s.term_x ≤ 40)
    (hy : s.term_y ≤ 23) :
    (terminal_write s v).term_x ≤ 40 ∧ (terminal_write s v).term_y ≤ 23 := by
  unfold terminal_write
  rw [toggle_cursor_disabled]
  simp only []
  split_ifs <;> simp <;> omega

theorem terminal_write_iterate_cursor_bound (v n : Nat) :
    ∀ s : State, s.term_x ≤ 40 → s.term_y ≤ 23 →
      (Nat.iterate (fun t => terminal_write t v) n s).term_x ≤ 40 ∧
      (Nat.iterate (fun t => terminal_write t v) n s).term_y ≤ 23 := by
  induction n with
  | zero => intro s hx hy; exact ⟨hx, hy⟩
  | succ n ih =>
    intro s hx hy
    rw [Function.iterate_succ_apply]
    exact ih _ (terminal_write_cursor_bound s v hx hy).1 (terminal_write_cursor_bound s v hx hy).2

/-- One call keeps the cursor at a column of at most 40 and a row of at most 23, when a
`setCursorPosition` is given a row of the grid. -/
theorem apply_cursor_bound (s : State) (op : TermOp) (hop : op.rowInGrid = true)
    (hx : s.term_x ≤ 40) (hy : s.term_y ≤ 23) :
    (op.apply s).term_x ≤ 40 ∧ (op.apply s).term_y ≤ 23 := by
  cases op with
  | write value => exact terminal_write_cursor_bound s value hx hy
  | toggle => exact ⟨hx, hy⟩
  | setCursor x y =>
    have h1 : y < TERM_HEIGHT := by simpa [TermOp.rowInGrid] using hop
    unfold TERM_HEIGHT at h1
    show (setCursorPosition s x y).term_x ≤ 40 ∧ (setCursorPosition s x y).term_y ≤ 23
    unfold setCursorPosition TERM_WIDTH TERM_HEIGHT
    simp only []
    rw [if_neg (by omega)]
    refine ⟨?_, by omega⟩
    split_ifs <;> omega
  | clearScreen => exact ⟨Nat.zero_le _, Nat.zero_le _⟩
  | reset => exact ⟨Nat.zero_le _, Nat.zero_le _⟩

theorem run_cursor_bound (ops : List TermOp) :
    ∀ s : State, (∀ op ∈ ops, op.rowInGrid = true) → s.term_x ≤ 40 → s.term_y ≤ 23 →
      (run s ops).term_x ≤ 40 ∧ (run s ops).term_y ≤ 23 := by
  induction ops with
  | nil => intro s _ hx hy; exact ⟨hx, hy⟩
  | cons op ops ih =>
    intro s hops hx hy
    have h1 := apply_cursor_bound s op (hops op (List.mem_cons_self op ops)) hx hy
    exact ih (op.apply s) (fun o ho => hops o (List.mem_cons_of_mem op ho)) h1.1 h1.2

theorem run_writes (cs : List Nat) :
    ∀ s : State, run s (cs.map TermOp.write) = terminal_write_all s cs := by
  induction cs with
  | nil => intro s; rfl
  | cons c cs ih => intro s; exact ih (terminal_write s c)

/-- C9 fails as stated: 40 printable bytes written from the power-on state leave the cursor
at column 40, which is not in [0, 40). -/
theorem cursor_invariant_counterexample :
    (run power_on ((List.replicate 40 0x41).map TermOp.write)).term_x = 40 ∧
    ¬ ((run power_on ((List.replicate 40 0x41).map TermOp.write)).term_x < 40 ∧
       (run power_on ((List.replicate 40 0x41).map TermOp.write)).term_y < 24) := by
  have h := terminal_write_all_row (List.replicate 40 0x41) power_on (by decide) (by decide)
  rw [run_writes]
  have hx : (terminal_write_all power_on (List.replicate 40 0x41)).term_x = 40 := h.1
  exact ⟨hx, fun hc => by omega⟩

/-! ## Bus accesses outside the PIA registers -/

/-- C10 fails on the code: a read of 0xD014, inside the I/O window 0xD010..0xD01F, loads from
byte offset 4 of the PIA struct, which has only the four registers at offsets 0..3; the value
is none of the four registers. -/
theorem read6502_past_pia_registers (woz_monitor : Nat → Nat) (s : State) :
    read6502 woz_monitor s 0xD014 = (pia_load s.pia 4, s) ∧ pia_load s.pia 4 = none := by
  exact ⟨rfl, rfl⟩

/-- Every read of 0xD014..0xD01F loads from past the four PIA registers. -/
theorem read6502_io_window_tail (woz_monitor : Nat → Nat) (s : State) (a : Nat)
    (h1 : 0xD014 ≤ a) (h2 : a ≤ 0xD01F) : (read6502 woz_monitor s a).1 = none := by
  interval_cases a <;> rfl

/-- Every other read of a 16-bit address returns a byte that the state or the monitor ROM
determines. -/
theorem read6502_defined (woz_monitor : Nat → Nat) (s : State) (a : Nat) (h16 : a < 65536)
    (hn : ¬ (0xD014 ≤ a ∧ a ≤ 0xD01F)) : ∃ v, (read6502 woz_monitor s a).1 = some v := by
  by_cases hram : a < 0x5000
  · exact ⟨_, by rw [read6502_ram _ _ a hram]⟩
  · by_cases hal : 0xE000 ≤ a ∧ a ≤ 0xEFFF
    · exact ⟨_, by rw [read6502_alias _ _ a hal.1 hal.2]⟩
    · by_cases hio : 0xD010 ≤ a ∧ a ≤ 0xD01F
      · have h3 : a ≤ 0xD013 := by omega
        obtain ⟨h4, _⟩ := hio
        interval_cases a <;> exact ⟨_, rfl⟩
      · by_cases hr : 0xFF00 ≤ a
        · exact ⟨_, by rw [read6502_rom _ _ a hr h16]⟩
        · exact ⟨_, by rw [read6502_unmapped _ _ a (by omega) (by omega) hal hio]⟩


/-! ## TFTP loader: target address, responses, opcodes -/

theorem bus_ram_index_low (a : Nat) (h1 : a < RAM_SIZE) : bus_ram_index a = some a := by
  unfold bus_ram_index
  rw [if_pos h1]

theorem bus_ram_index_alias (a : Nat) (h1 : ¬ a < RAM_SIZE) (h2 : a &&& 0xF000 = 0xE000) :
    bus_ram_index a = some (a - 0xA000) := by
  unfold bus_ram_index
  rw [if_neg h1, if_pos h2]

theorem bus_ram_index_none (a : Nat) (h1 : ¬ a < RAM_SIZE) (h2 : ¬ a &&& 0xF000 = 0xE000) :
    bus_ram_index a = none := by
  unfold bus_ram_index
  rw [if_neg h1, if_neg h2]

/-- The index `bus_ram_index` is the one that the bus functions use. -/
theorem bus_ram_index_used (woz_monitor : Nat → Nat) (s : State) (a v i : Nat)
    (h : bus_ram_index a = some i) :
    read6502 woz_monitor s a = (some (s.computer_ram i), s) ∧
    write6502 s a v = { s with computer_ram := store s.computer_ram i v } := by
  unfold read6502 write6502
  by_cases h1 : a < RAM_SIZE
  · rw [bus_ram_index_low a h1] at h
    rw [if_pos h1, if_pos h1, ← Option.some.inj h]
    exact ⟨rfl, rfl⟩
  · by_cases h2 : a &&& 0xF000 = 0xE000
    · rw [bus_ram_index_alias a h1 h2] at h
      rw [if_neg h1, if_neg h1, if_pos h2, if_pos h2, ← Option.some.inj h]
      exact ⟨rfl, rfl⟩
    · rw [bus_ram_index_none a h1 h2] at h
      exact Option.noConfusion h

theorem shl8_add (hi lo : Nat) : (hi <<< 8) + lo = lo + 256 * hi := by
  rw [Nat.shiftLeft_eq]
  omega

/-- The cursor stored by a write-request, in terms of the 16-bit address at 0x26/0x27. -/
theorem tftp_write_request_cursor (s : State) (wrq : List Nat) (hlen : 4 ≤ wrq.length)
    (hop : wrq.getD 1 0 = 0x02) (hlo : s.computer_ram 0x26 < 256)
    (hhi : s.computer_ram 0x27 < 256) :
    (tftp_server_recv s wrq).1.load_target_start =
      if 0xE000 ≤ s.computer_ram 0x26 + 256 * s.computer_ram 0x27 then
        s.computer_ram 0x26 + 256 * s.computer_ram 0x27 - 0xA000
      else s.computer_ram 0x26 + 256 * s.computer_ram 0x27 := by
  rw [tftp_write_request s wrq hlen hop]
  show (if ((s.computer_ram 0x27 <<< 8) + s.computer_ram 0x26) % 65536 ≥ 0xE000 then
      (((s.computer_ram 0x27 <<< 8) + s.computer_ram 0x26) % 65536 - 0xA000) % 65536
    else ((s.computer_ram 0x27 <<< 8) + s.computer_ram 0x26) % 65536) = _
  rw [shl8_add, Nat.mod_eq_of_lt (by omega : s.computer_ram 0x26 + 256 * s.computer_ram 0x27
    < 65536)]
  by_cases hA : 0xE000 ≤ s.computer_ram 0x26 + 256 * s.computer_ram 0x27
  · rw [if_pos hA, if_pos hA]
    exact Nat.mod_eq_of_lt (by omega)
  · rw [if_neg hA, if_neg hA]

/-- C11 fails as stated: with 0xF000 at 0x26/0x27 the write-request stores the cursor 0x5000,
not 0xF000, although 0xF000 is outside the alias window of the bus. -/
theorem tftp_target_counterexample :
    (write6502 power_on 0x27 0xF0).computer_ram 0x26
      + 256 * (write6502 power_on 0x27 0xF0).computer_ram 0x27 = 0xF000 ∧
    ¬ (0xF000 &&& 0xF000 = 0xE000) ∧
    (tftp_server_recv (write6502 power_on 0x27 0xF0) [0x00, 0x02, 0x61, 0x00]).1.load_target_start
      = 0x5000 ∧
    (tftp_server_recv (write6502 power_on 0x27 0xF0) [0x00, 0x02, 0x61, 0x00]).1.load_target_start
      ≠ 0xF000 := by
  have hlo : (write6502 power_on 0x27 0xF0).computer_ram 0x26 = 0 := by
    rw [write6502_ram power_on 0x27 0xF0 (by decide)]
    exact store_other power_on.computer_ram 0x27 0xF0 0x26 (by decide)
  have hhi : (write6502 power_on 0x27 0xF0).computer_ram 0x27 = 0xF0 := by
    rw [write6502_ram power_on 0x27 0xF0 (by decide)]
    exact store_same power_on.computer_ram 0x27 0xF0
  have hc : (tftp_server_recv (write6502 power_on 0x27 0xF0)
      [0x00, 0x02, 0x61, 0x00]).1.load_target_start = 0x5000 := by
    rw [tftp_write_request_cursor _ _ (by decide) (by decide) (by rw [hlo]; decide)
      (by rw [hhi]; decide), hlo, hhi]
    decide
  refine ⟨by rw [hlo, hhi], by decide, hc, ?_⟩
  rw [hc]
  decide

/-- C11 amended: on a write-request the cursor is set from the address `A` at 0x26/0x27; it
is `A - 0xA000` when `A >= 0xE000` (the alias window and also 0xF000..0xFFFF) and `A`
otherwise; whenever the bus maps `A` to RAM the cursor is the RAM index that the bus uses
for `A`. -/
theorem tftp_target_translation (s : State) (wrq : List Nat) (hlen : 4 ≤ wrq.length)
    (hop : wrq.getD 1 0 = 0x02) (hlo : s.computer_ram 0x26 < 256)
    (hhi : s.computer_ram 0x27 < 256) :
    (tftp_server_recv s wrq).1.load_target_start =
      (if 0xE000 ≤ s.computer_ram 0x26 + 256 * s.computer_ram 0x27 then
        s.computer_ram 0x26 + 256 * s.computer_ram 0x27 - 0xA000
       else s.computer_ram 0x26 + 256 * s.computer_ram 0x27) ∧
    (bus_ram_index (s.computer_ram 0x26 + 256 * s.computer_ram 0x27) = none ∨
     bus_ram_index (s.computer_ram 0x26 + 256 * s.computer_ram 0x27) =
       some (tftp_server_recv s wrq).1.load_target_start) := by
  have hc := tftp_write_request_cursor s wrq hlen hop hlo hhi
  refine ⟨hc, ?_⟩
  rw [hc]
  have h16 : s.computer_ram 0x26 + 256 * s.computer_ram 0x27 < 65536 := by omega
  by_cases h1 : s.computer_ram 0x26 + 256 * s.computer_ram 0x27 < RAM_SIZE
  · right
    have h1' : s.computer_ram 0x26 + 256 * s.computer_ram 0x27 < 0x5000 := h1
    rw [bus_ram_index_low _ h1, if_neg (by omega)]
  · by_cases h2 : (s.computer_ram 0x26 + 256 * s.computer_ram 0x27) &&& 0xF000 = 0xE000
    · right
      have h3 := (alias_window_iff _ h16).1 h2
      rw [bus_ram_index_alias _ h1 h2, if_pos h3.1]
    · left
      exact bus_ram_index_none _ h1 h2

theorem tftp_target_translation_witness :
    (4 ≤ [0x00, 0x02, 0x61, 0x00].length ∧ [0x00, 0x02, 0x61, 0x00].getD 1 0 = 0x02 ∧
      power_on.computer_ram 0x26 < 256 ∧ power_on.computer_ram 0x27 < 256) ∧
    (tftp_server_recv power_on [0x00, 0x02, 0x61, 0x00]).1.load_target_start =
      (if 0xE000 ≤ power_on.computer_ram 0x26 + 256 * power_on.computer_ram 0x27 then
        power_on.computer_ram 0x26 + 256 * power_on.computer_ram 0x27 - 0xA000
       else power_on.computer_ram 0x26 + 256 * power_on.computer_ram 0x27) ∧
    (bus_ram_index (power_on.computer_ram 0x26 + 256 * power_on.computer_ram 0x27) = none ∨
     bus_ram_index (power_on.computer_ram 0x26 + 256 * power_on.computer_ram 0x27) =
       some (tftp_server_recv power_on [0x00, 0x02, 0x61, 0x00]).1.load_target_start) :=
  ⟨by decide,
   tftp_target_translation power_on [0x00, 0x02, 0x61, 0x00] (by decide) (by decide)
     (by decide) (by decide)⟩


/-- A packet of at least 4 bytes whose second byte is neither 2 nor 3 changes nothing. -/
theorem tftp_other_opcode (s : State) (pdata : List Nat) (hlen : 4 ≤ pdata.length)
    (h2 : pdata.getD 1 0 ≠ 0x02) (h3 : pdata.getD 1 0 ≠ 0x03) :
    (tftp_server_recv s pdata).1 = s := by
  unfold tftp_server_recv
  simp only []
  rw [if_neg (by omega), if_neg h2, if_neg h3]

/-- C13 fails as stated: the packet `01 03 00 00 41` has the opcode field 0x0103, neither 2
nor 3, and is handled as a data packet: RAM and the cursor change. -/
theorem tftp_opcode_counterexample :
    4 ≤ [0x01, 0x03, 0x00, 0x00, 0x41].length ∧
    256 * [0x01, 0x03, 0x00, 0x00, 0x41].getD 0 0 + [0x01, 0x03, 0x00, 0x00, 0x41].getD 1 0
      = 259 ∧
    power_on.computer_ram 0 = 0 ∧
    (tftp_server_recv power_on [0x01, 0x03, 0x00, 0x00, 0x41]).1.computer_ram 0 = 0x41 ∧
    power_on.load_target_start = 0 ∧
    (tftp_server_recv power_on [0x01, 0x03, 0x00, 0x00, 0x41]).1.load_target_start = 1 := by
  rw [tftp_data power_on 0x01 0x00 0x00 [0x41]]
  exact ⟨by decide, rfl, rfl, rfl, rfl, rfl⟩

/-- C13 amended: a packet of at least 4 bytes whose byte 1, the low byte of the opcode
field, is neither 2 nor 3 leaves RAM, the transfer cursor and the rest of the state as they
were; byte 0 is not looked at. -/
theorem tftp_unknown_opcode_ignored (s : State) (pdata : List Nat) (hlen : 4 ≤ pdata.length)
    (h2 : pdata.getD 1 0 ≠ 0x02) (h3 : pdata.getD 1 0 ≠ 0x03) :
    (tftp_server_recv s pdata).1.computer_ram = s.computer_ram ∧
    (tftp_server_recv s pdata).1.load_target_start = s.load_target_start ∧
    (tftp_server_recv s pdata).1 = s := by
  rw [tftp_other_opcode s pdata hlen h2 h3]
  exact ⟨rfl, rfl, rfl⟩

theorem tftp_unknown_opcode_ignored_witness :
    (4 ≤ [0x00, 0x05, 0x00, 0x01].length ∧ [0x00, 0x05, 0x00, 0x01].getD 1 0 ≠ 0x02 ∧
      [0x00, 0x05, 0x00, 0x01].getD 1 0 ≠ 0x03) ∧
    (tftp_server_recv power_on [0x00, 0x05, 0x00, 0x01]).1.computer_ram
      = power_on.computer_ram ∧
    (tftp_server_recv power_on [0x00, 0x05, 0x00, 0x01]).1.load_target_start
      = power_on.load_target_start ∧
    (tftp_server_recv power_on [0x00, 0x05, 0x00, 0x01]).1 = power_on :=
  ⟨by decide,
   tftp_unknown_opcode_ignored power_on [0x00, 0x05, 0x00, 0x01] (by decide) (by decide)
     (by decide)⟩


/-! ## Telnet input: buffers of several bytes -/

/-- C14 fails as stated: of the buffer `61 62` only the first byte is deposited; the register
holds 0xC1, the filtered first byte with the top bit set, not 0xC2 for the last byte. -/
theorem telnet_buffer_counterexample :
    (dataRecvCallback power_on [0x61, 0x62]).pia.keyboard_register = 0xC1 ∧
    spec_filter 0x62 ||| 0x80 = 0xC2 ∧
    (dataRecvCallback power_on [0x61, 0x62]).pia.keyboard_register
      ≠ spec_filter 0x62 ||| 0x80 := by
  rw [dataRecvCallback_deposit power_on 0x61 [0x62] (by decide) (by decide)]
  decide

/-- C14 amended: of a received buffer whose first byte `b` is not 0x03 the handler filters
and deposits the first byte only: afterwards `keyboard_register` holds the filtered value of
`b` with the top bit set and `keyboard_control` is 0xFF, whatever bytes follow, and the state
is the one that the buffer of `b` alone leaves. -/
theorem telnet_first_byte_only (s : State) (b : Nat) (rest : List Nat) (hb : b < 256)
    (h3 : b ≠ 0x03) :
    (dataRecvCallback s (b :: rest)).pia.keyboard_register = spec_filter b ||| 0x80 ∧
    (dataRecvCallback s (b :: rest)).pia.keyboard_control = 0xFF ∧
    dataRecvCallback s (b :: rest) = dataRecvCallback s [b] := by
  rw [dataRecvCallback_deposit s b rest hb h3, dataRecvCallback_deposit s b [] hb h3]
  exact ⟨rfl, rfl, rfl⟩

theorem telnet_first_byte_only_witness :
    (0x61 < 256 ∧ 0x61 ≠ 0x03) ∧
    (dataRecvCallback power_on (0x61 :: [0x62, 0x03])).pia.keyboard_register
      = spec_filter 0x61 ||| 0x80 ∧
    (dataRecvCallback power_on (0x61 :: [0x62, 0x03])).pia.keyboard_control = 0xFF ∧
    dataRecvCallback power_on (0x61 :: [0x62, 0x03]) = dataRecvCallback power_on [0x61] :=
  ⟨by decide, telnet_first_byte_only power_on 0x61 [0x62, 0x03] (by decide) (by decide)⟩


/-! ## Terminal driver: cursor positioning, control bytes, blink -/

/-- C16: after `setCursorPosition(x, y)` the column is below 40; for `y < 24` the column is
`min(x, 39)` and the row is `y`; for `y >= 24` the column is forced to 23 and the row is
stored as `y`, unclamped; nothing else changes. -/
theorem set_cursor_position (s : State) (x y : Nat) :
    (setCursorPosition s x y).term_x < 40 ∧
    (setCursorPosition s x y).term_x = (if y < 24 then min x 39 else 23) ∧
    (setCursorPosition s x y).term_y = y ∧
    setCursorPosition s x y =
      { s with term_x := (if y < 24 then min x 39 else 23), term_y := y } := by
  have hx : (setCursorPosition s x y).term_x = (if y < 24 then min x 39 else 23) := by
    show (if y ≥ TERM_HEIGHT then TERM_HEIGHT - 1
      else if x ≥ TERM_WIDTH then TERM_WIDTH - 1 else x) = _
    unfold TERM_HEIGHT TERM_WIDTH
    by_cases hy : y < 24
    · rw [if_neg (by omega), if_pos hy]
      by_cases hx : x ≥ 40
      · rw [if_pos hx]; omega
      · rw [if_neg hx]; omega
    · rw [if_pos (by omega), if_neg hy]
  refine ⟨?_, hx, rfl, ?_⟩
  · rw [hx]
    by_cases hy : y < 24
    · rw [if_pos hy]; omega
    · rw [if_neg hy]; omega
  · show ({ s with term_x := (setCursorPosition s x y).term_x, term_y := y } : State) = _
    rw [hx]

/-- A byte that is neither printable nor CR nor LF, written with the column at most 39:
the cursor cell is blanked and the cursor stays. -/
theorem terminal_write_control (s : State) (v : Nat) (hx : s.term_x ≤ 39)
    (hv : ¬ (0x20 ≤ v ∧ v ≤ 0x7E)) (hcr : v ≠ 0x0D) (hlf : v ≠ 0x0A) :
    terminal_write s v =
      { s with
        cursor_disabled := 0
        cursor_visible := s.cursor_visible ^^^ 1
        terminal_ram := store s.terminal_ram (cursor_index s) 0x20 } := by
  unfold terminal_write
  rw [toggle_cursor_disabled]
  have h1 : ¬ (s.term_x > 39 ∨ v = 0x0D ∨ v = 0x0A) := by omega
  have h2 : ¬ (v ≥ 0x20 ∧ v ≤ 0x7E) := hv
  simp only [if_neg h1, if_neg h2]

/-- A byte that is not printable, written with the column above 39 on a row above the last:
the cursor moves to the start of the next row. -/
theorem terminal_write_control_wrap (s : State) (v : Nat) (hx : s.term_x > 39)
    (hy : s.term_y < 23) (hv : ¬ (0x20 ≤ v ∧ v ≤ 0x7E)) :
    terminal_write s v =
      { s with
        cursor_disabled := 0
        cursor_visible := s.cursor_visible ^^^ 1
        terminal_ram := store s.terminal_ram (cursor_index s) 0x20
        term_x := 0
        term_y := s.term_y + 1 } := by
  unfold terminal_write
  rw [toggle_cursor_disabled]
  have h1 : s.term_x > 39 ∨ v = 0x0D ∨ v = 0x0A := Or.inl hx
  have h2 : ¬ (v ≥ 0x20 ∧ v ≤ 0x7E) := hv
  have h3 : (s.term_y + 1) % 256 = s.term_y + 1 := Nat.mod_eq_of_lt (by omega)
  have h4 : ¬ s.term_y ≥ 23 := by omega
  simp only [if_pos h1, if_neg h2, if_neg h4, h3]

/-- C17 fails as stated: after 40 printable bytes from the power-on state the cursor is at
column 40, row 0, and the control byte 0x07 written there moves it to column 0, row 1: the
pending line wrap is run for any byte. -/
theorem control_byte_moves_cursor :
    (terminal_write_all power_on (List.replicate 40 0x41)).term_x = 40 ∧
    (terminal_write_all power_on (List.replicate 40 0x41)).term_y = 0 ∧
    ¬ (0x20 ≤ 0x07 ∧ 0x07 ≤ 0x7E) ∧ 0x07 ≠ 0x0D ∧ 0x07 ≠ 0x0A ∧
    (terminal_write (terminal_write_all power_on (List.replicate 40 0x41)) 0x07).term_x = 0 ∧
    (terminal_write (terminal_write_all power_on (List.replicate 40 0x41)) 0x07).term_y = 1 := by
  obtain ⟨hx, hy, _⟩ :=
    terminal_write_all_row (List.replicate 40 0x41) power_on (by decide) (by decide)
  have hx40 : (terminal_write_all power_on (List.replicate 40 0x41)).term_x = 40 := hx
  have hy0 : (terminal_write_all power_on (List.replicate 40 0x41)).term_y = 0 := hy
  refine ⟨hx40, hy0, by decide, by decide, by decide, ?_, ?_⟩
  · rw [terminal_write_control_wrap _ 0x07 (by omega) (by omega) (by decide)]
  · rw [terminal_write_control_wrap _ 0x07 (by omega) (by omega) (by decide)]
    show (terminal_write_all power_on (List.replicate 40 0x41)).term_y + 1 = 1
    rw [hy0]

/-- C18 fails as stated: with the letter code 0x01 in the cursor cell, the cursor visible
and not disabled, `toggle_cursor` leaves 0x00 in the cell, not the letter. -/
theorem toggle_cursor_counterexample :
    cursor_index (setCursorPosition (terminal_write power_on 0x41) 0 0) = 0 ∧
    (setCursorPosition (terminal_write power_on 0x41) 0 0).terminal_ram 0 = 0x01 ∧
    (setCursorPosition (terminal_write power_on 0x41) 0 0).cursor_visible = 1 ∧
    (setCursorPosition (terminal_write power_on 0x41) 0 0).cursor_disabled = 0 ∧
    (toggle_cursor (setCursorPosition (terminal_write power_on 0x41) 0 0)).cursor_visible = 0 ∧
    (toggle_cursor (setCursorPosition (terminal_write power_on 0x41) 0 0)).terminal_ram 0
      = 0x00 := by
  rw [terminal_write_printable power_on 0x41 (by decide) (by decide) (by decide)]
  exact ⟨rfl, rfl, rfl, rfl, rfl, rfl⟩

/-! ## Stores past the end of the arrays -/

/-- Line feeds written from column 0 move the cursor down, one row each, while the last row
is not reached. -/
theorem terminal_write_all_newlines (n : Nat) :
    ∀ s : State, s.term_x = 0 → s.term_y + n ≤ 23 →
      (terminal_write_all s (List.replicate n 0x0A)).term_x = 0 ∧
      (terminal_write_all s (List.replicate n 0x0A)).term_y = s.term_y + n := by
  induction n with
  | zero => intro s hx _; exact ⟨hx, rfl⟩
  | succ n ih =>
    intro s hx hy
    have hstep : terminal_write_all s (List.replicate (n + 1) 0x0A) =
        terminal_write_all (terminal_write s 0x0A) (List.replicate n 0x0A) := rfl
    rw [hstep, terminal_write_newline s 0x0A (Or.inr rfl) (by omega)]
    have h := ih
      { s with
        cursor_disabled := 0
        cursor_visible := s.cursor_visible ^^^ 1
        terminal_ram := store s.terminal_ram (cursor_index s) 0x20
        term_x := 0
        term_y := s.term_y + 1 } rfl (by show s.term_y + 1 + n ≤ 23; omega)
    refine ⟨h.1, ?_⟩
    rw [h.2]
    show s.term_y + 1 + n = s.term_y + (n + 1)
    omega

theorem terminal_write_all_concat (s : State) (l1 l2 : List Nat) :
    terminal_write_all s (l1 ++ l2) = terminal_write_all (terminal_write_all s l1) l2 := by
  unfold terminal_write_all
  rw [List.foldl_append]

/-- The scroll touches no index from 960 on. -/
theorem scroll_up_outside (g : Nat → Nat) (j : Nat) (hj : 960 ≤ j) : scroll_up g j = g j := by
  unfold scroll_up memset memcpy_within TERM_WIDTH TERM_HEIGHT
  rw [if_neg (by omega), if_neg (by omega)]

theorem terminal_write_printable_scroll_ram (s : State) (v : Nat) (hx : s.term_x > 39)
    (hy : 23 ≤ s.term_y) (hv1 : 0x20 ≤ v) (hv2 : v ≤ 0x7E) :
    (terminal_write s v).terminal_ram =
      store (scroll_up (store s.terminal_ram (cursor_index s) 0x20))
        (s.term_y * TERM_WIDTH + 0) (v &&& 0x3F) := by
  rw [terminal_write_printable_scroll s v hx hy hv1 hv2]

theorem tftp_data_ram (s : State) (b0 h l : Nat) (p : List Nat) :
    (tftp_server_recv s (b0 :: 0x03 :: h :: l :: p)).1.computer_ram =
      memcpy_from s.computer_ram s.load_target_start (b0 :: 0x03 :: h :: l :: p) 4 p.length := by
  rw [tftp_data]

theorem tftp_data_cursor (s : State) (b0 h l : Nat) (p : List Nat) :
    (tftp_server_recv s (b0 :: 0x03 :: h :: l :: p)).1.load_target_start =
      (s.load_target_start + p.length) % 65536 := by
  rw [tftp_data]

/-- C19 fails on the code: 23 line feeds and 40 printable bytes written from the power-on
state leave the cursor at column 40 of row 23, where the cell index of the next
`toggle_cursor` or `terminal_write` store is 960, the size of `terminal_ram`, not below it;
the next `terminal_write` leaves a blank at index 960. -/
theorem cursor_index_past_grid :
    TERM_WIDTH * TERM_HEIGHT = 960 ∧
    cursor_index
      (run power_on ((List.replicate 23 0x0A ++ List.replicate 40 0x41).map TermOp.write))
      = 960 ∧
    (terminal_write
      (run power_on ((List.replicate 23 0x0A ++ List.replicate 40 0x41).map TermOp.write))
      0x41).terminal_ram 960 = 0x20 := by
  rw [run_writes, terminal_write_all_concat]
  obtain ⟨hx1, hy1⟩ := terminal_write_all_newlines 23 power_on rfl (by decide)
  obtain ⟨hx2, hy2, _⟩ := terminal_write_all_row (List.replicate 40 0x41)
    (terminal_write_all power_on (List.replicate 23 0x0A)) (by rw [hx1]; decide) (by decide)
  have hx : (terminal_write_all (terminal_write_all power_on (List.replicate 23 0x0A))
      (List.replicate 40 0x41)).term_x = 40 := by
    rw [hx2, hx1]; rfl
  have hy : (terminal_write_all (terminal_write_all power_on (List.replicate 23 0x0A))
      (List.replicate 40 0x41)).term_y = 23 := by
    rw [hy2, hy1]; rfl
  have hidx : cursor_index (terminal_write_all (terminal_write_all power_on
      (List.replicate 23 0x0A)) (List.replicate 40 0x41)) = 960 := by
    unfold cursor_index TERM_WIDTH
    rw [hx, hy]
  refine ⟨rfl, hidx, ?_⟩
  rw [terminal_write_printable_scroll_ram _ 0x41 (by omega) (by omega) (by decide) (by decide),
    hidx, hy, store_other _ _ _ _ (by decide), scroll_up_outside _ 960 (by decide),
    store_same]

/-- C20 fails on the code: with 0x5000 at 0x26/0x27 the write-request stores the cursor
0x5000, and a data packet with one payload byte then copies it to index 0x5000 of
`computer_ram`, the size of the array, not below it. -/
theorem tftp_store_past_ram :
    RAM_SIZE = 0x5000 ∧
    (tftp_server_recv (write6502 power_on 0x27 0x50) [0x00, 0x02, 0x61, 0x00]).1.load_target_start
      = 0x5000 ∧
    (tftp_server_recv
      (tftp_server_recv (write6502 power_on 0x27 0x50) [0x00, 0x02, 0x61, 0x00]).1
      [0x00, 0x03, 0x00, 0x01, 0x41]).1.computer_ram 0x5000 = 0x41 ∧
    (tftp_server_recv
      (tftp_server_recv (write6502 power_on 0x27 0x50) [0x00, 0x02, 0x61, 0x00]).1
      [0x00, 0x03, 0x00, 0x01, 0x41]).1.load_target_start = 0x5001 := by
  have hlo : (write6502 power_on 0x27 0x50).computer_ram 0x26 = 0 := by
    rw [write6502_ram power_on 0x27 0x50 (by decide)]
    exact store_other power_on.computer_ram 0x27 0x50 0x26 (by decide)
  have hhi : (write6502 power_on 0x27 0x50).computer_ram 0x27 = 0x50 := by
    rw [write6502_ram power_on 0x27 0x50 (by decide)]
    exact store_same power_on.computer_ram 0x27 0x50
  have hc : (tftp_server_recv (write6502 power_on 0x27 0x50)
      [0x00, 0x02, 0x61, 0x00]).1.load_target_start = 0x5000 := by
    rw [tftp_write_request_cursor _ _ (by decide) (by decide) (by rw [hlo]; decide)
      (by rw [hhi]; decide), hlo, hhi]
    decide
  refine ⟨rfl, hc, ?_, ?_⟩
  · rw [tftp_data_ram _ 0x00 0x00 0x01 [0x41], hc]
    unfold memcpy_from
    rw [if_pos (by decide)]
    rfl
  · rw [tftp_data_cursor _ 0x00 0x00 0x01 [0x41], hc]
    rfl


/-! ## Terminal driver: clearing the screen -/

theorem scroll_up_low (g : Nat → Nat) (j : Nat) (hj : j < 920) : scroll_up g j = g (j + 40) := by
  unfold scroll_up memset memcpy_within TERM_WIDTH TERM_HEIGHT
  rw [if_neg (by omega), if_pos (by omega)]
  congr 1
  omega

theorem scroll_up_high (g : Nat → Nat) (j : Nat) (h1 : 920 ≤ j) (h2 : j < 960) :
    scroll_up g j = 0x20 := by
  unfold scroll_up memset TERM_WIDTH TERM_HEIGHT
  rw [if_pos (by omega)]
  rfl

/-- One `terminal_write(32)` of the clearing loop.  After `n` blanks have been written, the
`n` cells before the cursor cell are blank, and either no scroll has taken place yet or the
cells from the cursor cell to the end of the grid are blank as well; one more blank written
keeps this with `n + 1`. -/
theorem clear_step (n : Nat) (s : State) (hx : s.term_x ≤ 40) (hy : s.term_y ≤ 23)
    (hA : ∀ j, cursor_index s - n ≤ j → j < cursor_index s → s.terminal_ram j = 0x20)
    (hB : n ≤ cursor_index s ∨
      ∀ j, cursor_index s ≤ j → j < 960 → s.terminal_ram j = 0x20) :
    (terminal_write s 32).term_x ≤ 40 ∧ (terminal_write s 32).term_y ≤ 23 ∧
    (∀ j, cursor_index (terminal_write s 32) - (n + 1) ≤ j →
      j < cursor_index (terminal_write s 32) → (terminal_write s 32).terminal_ram j = 0x20) ∧
    (n + 1 ≤ cursor_index (terminal_write s 32) ∨
      ∀ j, cursor_index (terminal_write s 32) ≤ j → j < 960 →
        (terminal_write s 32).terminal_ram j = 0x20) := by
  have hmask : 32 &&& 0x3F = 0x20 := by decide
  have hp : cursor_index s = s.term_y * 40 + s.term_x := rfl
  by_cases hx1 : s.term_x ≤ 39
  · -- the blank goes to the cursor cell, the cursor moves one column right
    have hw := terminal_write_printable s 32 hx1 (by decide) (by decide)
    have hx' : (terminal_write s 32).term_x = s.term_x + 1 := by rw [hw]
    have hy' : (terminal_write s 32).term_y = s.term_y := by rw [hw]
    have hg' : (terminal_write s 32).terminal_ram =
        store (store s.terminal_ram (cursor_index s) 0x20) (cursor_index s) (32 &&& 0x3F) := by
      rw [hw]
    have hp' : cursor_index (terminal_write s 32) = cursor_index s + 1 := by
      unfold cursor_index TERM_WIDTH
      rw [hx', hy']; omega
    rw [hp', hg', hx', hy', hmask]
    refine ⟨by omega, hy, fun j h1 h2 => ?_, ?_⟩
    · by_cases hj : j = cursor_index s
      · rw [hj, store_same]
      · rw [store_other _ _ _ _ hj, store_other _ _ _ _ hj]
        exact hA j (by omega) (by omega)
    · rcases hB with hB | hB
      · left; omega
      · right
        intro j h1 h2
        rw [store_other _ _ _ _ (by omega), store_other _ _ _ _ (by omega)]
        exact hB j (by omega) h2
  · by_cases hy1 : s.term_y < 23
    · -- the pending wrap: the blank goes to column 0 of the next row
      have hw := terminal_write_printable_wrap s 32 (by omega) hy1 (by decide) (by decide)
      have hx' : (terminal_write s 32).term_x = 1 := by rw [hw]
      have hy' : (terminal_write s 32).term_y = s.term_y + 1 := by rw [hw]
      have hg' : (terminal_write s 32).terminal_ram =
          store (store s.terminal_ram (cursor_index s) 0x20)
            ((s.term_y + 1) * TERM_WIDTH + 0) (32 &&& 0x3F) := by
        rw [hw]
      have hcell : (s.term_y + 1) * TERM_WIDTH + 0 = cursor_index s := by
        unfold cursor_index TERM_WIDTH; omega
      have hp' : cursor_index (terminal_write s 32) = cursor_index s + 1 := by
        unfold cursor_index TERM_WIDTH
        rw [hx', hy']; omega
      rw [hp', hg', hx', hy', hmask, hcell]
      refine ⟨by omega, by omega, fun j h1 h2 => ?_, ?_⟩
      · by_cases hj : j = cursor_index s
        · rw [hj, store_same]
        · rw [store_other _ _ _ _ hj, store_other _ _ _ _ hj]
          exact hA j (by omega) (by omega)
      · rcases hB with hB | hB
        · left; omega
        · right
          intro j h1 h2
          rw [store_other _ _ _ _ (by omega), store_other _ _ _ _ (by omega)]
          exact hB j (by omega) h2
    · -- the pending wrap on the last row: scroll, then the blank goes to column 0
      have hy23 : s.term_y = 23 := by omega
      have hx40 : s.term_x = 40 := by omega
      have hp960 : cursor_index s = 960 := by rw [hp, hy23, hx40]
      have hw := terminal_write_printable_scroll s 32 (by omega) (by omega) (by decide)
        (by decide)
      have hx' : (terminal_write s 32).term_x = 1 := by rw [hw]
      have hy' : (terminal_write s 32).term_y = s.term_y := by rw [hw]
      have hg' : (terminal_write s 32).terminal_ram =
          store (scroll_up (store s.terminal_ram (cursor_index s) 0x20))
            (s.term_y * TERM_WIDTH + 0) (32 &&& 0x3F) := by
        rw [hw]
      have hcell : s.term_y * TERM_WIDTH + 0 = 920 := by
        unfold TERM_WIDTH; omega
      have hp' : cursor_index (terminal_write s 32) = 921 := by
        unfold cursor_index TERM_WIDTH
        rw [hx', hy']; omega
      rw [hp', hg', hx', hy', hmask, hcell, hp960]
      rw [hp960] at hA
      refine ⟨by omega, hy, fun j h1 h2 => ?_, Or.inr (fun j h1 h2 => ?_)⟩
      · by_cases hj : j = 920
        · rw [hj, store_same]
        · rw [store_other _ _ _ _ hj, scroll_up_low _ j (by omega),
            store_other _ _ _ _ (by omega)]
          exact hA (j + 40) (by omega) (by omega)
      · rw [store_other _ _ _ _ (by omega), scroll_up_high _ j (by omega) h2]

/-- The clearing loop: `k` more blanks after the first `n`. -/
theorem clear_iterate (k : Nat) :
    ∀ (n : Nat) (s : State), s.term_x ≤ 40 → s.term_y ≤ 23 →
      (∀ j, cursor_index s - n ≤ j → j < cursor_index s → s.terminal_ram j = 0x20) →
      (n ≤ cursor_index s ∨
        ∀ j, cursor_index s ≤ j → j < 960 → s.terminal_ram j = 0x20) →
      (Nat.iterate (fun t => terminal_write t 32) k s).term_x ≤ 40 ∧
      (Nat.iterate (fun t => terminal_write t 32) k s).term_y ≤ 23 ∧
      (∀ j, cursor_index (Nat.iterate (fun t => terminal_write t 32) k s) - (n + k) ≤ j →
        j < cursor_index (Nat.iterate (fun t => terminal_write t 32) k s) →
        (Nat.iterate (fun t => terminal_write t 32) k s).terminal_ram j = 0x20) ∧
      (n + k ≤ cursor_index (Nat.iterate (fun t => terminal_write t 32) k s) ∨
        ∀ j, cursor_index (Nat.iterate (fun t => terminal_write t 32) k s) ≤ j → j < 960 →
          (Nat.iterate (fun t => terminal_write t 32) k s).terminal_ram j = 0x20) := by
  induction k with
  | zero => intro n s hx hy hA hB; exact ⟨hx, hy, hA, hB⟩
  | succ k ih =>
    intro n s hx hy hA hB
    obtain ⟨hx1, hy1, hA1, hB1⟩ := clear_step n s hx hy hA hB
    have h := ih (n + 1) (terminal_write s 32) hx1 hy1 hA1 hB1
    rw [Function.iterate_succ_apply]
    have e : n + (k + 1) = n + 1 + k := by omega
    rw [e]
    exact h


/-! ## The checked terminal driver and the unchecked one -/

theorem store_checked_in (g : Nat → Nat) (i v : Nat) (h : i < 960) :
    store_checked g i v = some (store g i v) := by
  unfold store_checked TERM_WIDTH TERM_HEIGHT
  rw [if_pos (by omega)]

theorem store_checked_out (g : Nat → Nat) (i v : Nat) (h : 960 ≤ i) :
    store_checked g i v = none := by
  unfold store_checked TERM_WIDTH TERM_HEIGHT
  rw [if_neg (by omega)]

/-- With the cursor cell inside the array the checked `toggle_cursor` is the unchecked one. -/
theorem toggle_cursor_checked_in (s : State) (h : cursor_index s < 960) :
    toggle_cursor_checked s = some (toggle_cursor s) := by
  unfold toggle_cursor_checked
  simp only [store_checked_in _ _ _ h]
  rfl

/-- With the cursor cell past the array `toggle_cursor` stores outside it. -/
theorem toggle_cursor_checked_out (s : State) (h : 960 ≤ cursor_index s) :
    toggle_cursor_checked s = none := by
  unfold toggle_cursor_checked
  simp only [store_checked_out _ _ _ h]

/-- With the cursor cell past the array `terminal_write` stores outside it, in its first
step. -/
theorem terminal_write_checked_out (s : State) (v : Nat) (h : 960 ≤ cursor_index s) :
    terminal_write_checked s v = none := by
  unfold terminal_write_checked
  have h1 : 960 ≤ cursor_index { s with cursor_disabled := 1 } := h
  simp only [toggle_cursor_checked_out _ h1]

/-- With the cursor cell inside the array every store of `terminal_write` is inside it, and
the checked function is the unchecked one. -/
theorem terminal_write_checked_in (s : State) (v : Nat) (h : cursor_index s < 960) :
    terminal_write_checked s v = some (terminal_write s v) := by
  have h1 : cursor_index { s with cursor_disabled := 1 } < 960 := h
  have hidx : s.term_y * 40 + s.term_x < 960 := h
  unfold terminal_write_checked
  simp only [toggle_cursor_checked_in _ h1]
  unfold terminal_write
  by_cases hp : v ≥ 0x20 ∧ v ≤ 0x7E
  · simp only [if_pos hp]
    have hx : (toggle_cursor { s with cursor_disabled := 1 }).term_x = s.term_x := rfl
    have hy : (toggle_cursor { s with cursor_disabled := 1 }).term_y = s.term_y := rfl
    by_cases hw : (toggle_cursor { s with cursor_disabled := 1 }).term_x > 39 ∨ v = 0x0D
        ∨ v = 0x0A
    · simp only [if_pos hw]
      have hx39 : s.term_x > 39 := by
        rw [hx] at hw
        omega
      have hy23 : ¬ (toggle_cursor { s with cursor_disabled := 1 }).term_y ≥ 23 := by
        rw [hy]; omega
      simp only [if_neg hy23]
      have hin : cursor_index
          { toggle_cursor { s with cursor_disabled := 1 } with
            term_x := 0
            term_y := ((toggle_cursor { s with cursor_disabled := 1 }).term_y + 1) % 256 }
          < 960 := by
        show ((toggle_cursor { s with cursor_disabled := 1 }).term_y + 1) % 256 * TERM_WIDTH + 0
          < 960
        rw [hy]
        unfold TERM_WIDTH
        have : (s.term_y + 1) % 256 = s.term_y + 1 := Nat.mod_eq_of_lt (by omega)
        omega
      simp only [store_checked_in _ _ _ hin]
    · simp only [if_neg hw]
      have hin : cursor_index (toggle_cursor { s with cursor_disabled := 1 }) < 960 := h
      simp only [store_checked_in _ _ _ hin]
  · simp only [if_neg hp]

/-- A checked loop that completes gives the state of the unchecked loop. -/
theorem terminal_write_n_checked_sound (n : Nat) (v : Nat) :
    ∀ s t : State, terminal_write_n_checked n s v = some t →
      t = Nat.iterate (fun u => terminal_write u v) n s := by
  induction n with
  | zero =>
    intro s t h
    exact (Option.some.inj h).symm
  | succ k ih =>
    intro s t h
    unfold terminal_write_n_checked at h
    by_cases hin : cursor_index s < 960
    · rw [terminal_write_checked_in s v hin] at h
      rw [Function.iterate_succ_apply]
      exact ih (terminal_write s v) t h
    · rw [terminal_write_checked_out s v (by omega)] at h
      exact Option.noConfusion h

/-- One checked call that completes gives the state of the unchecked call. -/
theorem apply_checked_sound (s t : State) (op : TermOp) (h : op.apply_checked s = some t) :
    t = op.apply s := by
  cases op with
  | write value =>
    by_cases hin : cursor_index s < 960
    · have h1 : terminal_write_checked s value = some t := h
      rw [terminal_write_checked_in s value hin] at h1
      exact (Option.some.inj h1).symm
    · have h1 : terminal_write_checked s value = some t := h
      rw [terminal_write_checked_out s value (by omega)] at h1
      exact Option.noConfusion h1
  | toggle =>
    by_cases hin : cursor_index s < 960
    · have h1 : toggle_cursor_checked s = some t := h
      rw [toggle_cursor_checked_in s hin] at h1
      exact (Option.some.inj h1).symm
    · have h1 : toggle_cursor_checked s = some t := h
      rw [toggle_cursor_checked_out s (by omega)] at h1
      exact Option.noConfusion h1
  | setCursor x y => exact (Option.some.inj h).symm
  | clearScreen =>
    have h1 : terminal_clearScreen_checked s = some t := h
    unfold terminal_clearScreen_checked at h1
    cases hl : terminal_write_n_checked (TERM_WIDTH * TERM_HEIGHT) s 32 with
    | none => rw [hl] at h1; exact Option.noConfusion h1
    | some s1 =>
      rw [hl] at h1
      have hs1 := terminal_write_n_checked_sound _ 32 s s1 hl
      have ht : t = { s1 with term_x := 0, term_y := 0 } := (Option.some.inj h1).symm
      rw [ht, hs1]
      rfl
  | reset => exact (Option.some.inj h).symm

/-- A checked run that completes gives the state of the unchecked run. -/
theorem run_checked_sound (ops : List TermOp) :
    ∀ s t : State, run_checked s ops = some t → t = run s ops := by
  induction ops with
  | nil =>
    intro s t h
    exact (Option.some.inj h).symm
  | cons op ops ih =>
    intro s t h
    unfold run_checked at h
    cases ha : op.apply_checked s with
    | none => rw [ha] at h; exact Option.noConfusion h
    | some u =>
      rw [ha] at h
      have hu := apply_checked_sound s u op ha
      have ht := ih u t h
      rw [ht, hu]
      rfl

/-! ## The cursor under sequences of calls that stay inside the grid -/

/-- C9 amended: in every state reached from a state with the cursor at column 0, row 0 by
`terminal_write`, `toggle_cursor`, `terminal_clearScreen` and `reset_emulator` calls with
any arguments and `setCursorPosition` calls whose row argument is below 24, all of whose
stores into `terminal_ram` are inside the array, the cursor column is in [0, 40] and the
cursor row is in [0, 24). -/
theorem cursor_invariant (s t : State) (ops : List TermOp) (hx : s.term_x = 0)
    (hy : s.term_y = 0) (hops : ∀ op ∈ ops, op.rowInGrid = true)
    (hrun : run_checked s ops = some t) :
    t.term_x ≤ 40 ∧ t.term_y < 24 := by
  have ht := run_checked_sound ops s t hrun
  have h := run_cursor_bound ops s hops (by omega) (by omega)
  rw [ht]
  exact ⟨h.1, by omega⟩

theorem cursor_invariant_witness :
    (power_on.term_x = 0 ∧ power_on.term_y = 0 ∧
      (∀ op ∈ [TermOp.write 0x41, TermOp.toggle, TermOp.setCursor 200 23, TermOp.write 0x0A,
        TermOp.reset, TermOp.write 0x42], op.rowInGrid = true) ∧
      run_checked power_on [TermOp.write 0x41, TermOp.toggle, TermOp.setCursor 200 23,
        TermOp.write 0x0A, TermOp.reset, TermOp.write 0x42] =
        some (run power_on [TermOp.write 0x41, TermOp.toggle, TermOp.setCursor 200 23,
          TermOp.write 0x0A, TermOp.reset, TermOp.write 0x42])) ∧
    (run power_on [TermOp.write 0x41, TermOp.toggle, TermOp.setCursor 200 23,
        TermOp.write 0x0A, TermOp.reset, TermOp.write 0x42]).term_x ≤ 40 ∧
    (run power_on [TermOp.write 0x41, TermOp.toggle, TermOp.setCursor 200 23,
        TermOp.write 0x0A, TermOp.reset, TermOp.write 0x42]).term_y < 24 :=
  ⟨⟨rfl, rfl, by decide, rfl⟩,
   cursor_invariant power_on _ [TermOp.write 0x41, TermOp.toggle, TermOp.setCursor 200 23,
     TermOp.write 0x0A, TermOp.reset, TermOp.write 0x42] rfl rfl (by decide) rfl⟩

/-! ## Terminal driver: single calls with the cursor inside the grid -/

theorem cursor_index_in_grid (s : State) (hx : s.term_x < 40) (hy : s.term_y < 24) :
    cursor_index s < 960 := by
  unfold cursor_index TERM_WIDTH
  omega

/-- C18 amended: for a state with the cursor inside the grid, `toggle_cursor` stores inside
the array, flips the visibility flag, leaves the cursor position and every cell other than
the cursor cell unchanged, and stores at the cursor cell a blank (0x20) when the new
visibility flag or the disabled flag is nonzero, and the byte 0x00 otherwise, whatever the
cell held. -/
theorem toggle_cursor_effect (s : State) (j : Nat) (hx : s.term_x < 40) (hy : s.term_y < 24)
    (hj : j ≠ cursor_index s) :
    toggle_cursor_checked s = some (toggle_cursor s) ∧
    (toggle_cursor s).cursor_visible = s.cursor_visible ^^^ 1 ∧
    (toggle_cursor s).term_x = s.term_x ∧
    (toggle_cursor s).term_y = s.term_y ∧
    (toggle_cursor s).terminal_ram j = s.terminal_ram j ∧
    (toggle_cursor s).terminal_ram (cursor_index s) =
      (if (s.cursor_visible ^^^ 1) ||| s.cursor_disabled ≠ 0 then 0x20 else 0x00) := by
  refine ⟨toggle_cursor_checked_in s (cursor_index_in_grid s hx hy), rfl, rfl, rfl, ?_, ?_⟩
  · show store _ _ _ _ = _
    rw [store_other _ _ _ _ hj]
  · show store _ _ _ _ = _
    rw [store_same]

theorem toggle_cursor_effect_witness :
    ((setCursorPosition power_on 7 2).term_x < 40 ∧
      (setCursorPosition power_on 7 2).term_y < 24 ∧
      (5 : Nat) ≠ cursor_index (setCursorPosition power_on 7 2)) ∧
    toggle_cursor_checked (setCursorPosition power_on 7 2)
      = some (toggle_cursor (setCursorPosition power_on 7 2)) ∧
    (toggle_cursor (setCursorPosition power_on 7 2)).cursor_visible
      = (setCursorPosition power_on 7 2).cursor_visible ^^^ 1 ∧
    (toggle_cursor (setCursorPosition power_on 7 2)).term_x
      = (setCursorPosition power_on 7 2).term_x ∧
    (toggle_cursor (setCursorPosition power_on 7 2)).term_y
      = (setCursorPosition power_on 7 2).term_y ∧
    (toggle_cursor (setCursorPosition power_on 7 2)).terminal_ram 5
      = (setCursorPosition power_on 7 2).terminal_ram 5 ∧
    (toggle_cursor (setCursorPosition power_on 7 2)).terminal_ram
        (cursor_index (setCursorPosition power_on 7 2)) =
      (if ((setCursorPosition power_on 7 2).cursor_visible ^^^ 1)
          ||| (setCursorPosition power_on 7 2).cursor_disabled ≠ 0 then 0x20
       else 0x00) :=
  ⟨by decide,
   toggle_cursor_effect (setCursorPosition power_on 7 2) 5 (by decide) (by decide)
     (by decide)⟩

/-- C17 amended: for a state with the cursor inside the grid (column below 40, row below 24)
and a byte outside [0x20, 0x7E] other than CR and LF, `terminal_write` stores inside the
array, stores the byte in no cell (the cursor cell is blanked, every other cell is as it
was) and leaves column and row as they were. -/
theorem control_byte_keeps_cursor (s : State) (v j : Nat) (hx : s.term_x < 40)
    (hy : s.term_y < 24) (hv : ¬ (0x20 ≤ v ∧ v ≤ 0x7E)) (hcr : v ≠ 0x0D) (hlf : v ≠ 0x0A)
    (hj : j ≠ cursor_index s) :
    terminal_write_checked s v = some (terminal_write s v) ∧
    (terminal_write s v).term_x = s.term_x ∧
    (terminal_write s v).term_y = s.term_y ∧
    (terminal_write s v).terminal_ram j = s.terminal_ram j ∧
    (terminal_write s v).terminal_ram (cursor_index s) = 0x20 ∧
    0x20 ≠ v := by
  refine ⟨terminal_write_checked_in s v (cursor_index_in_grid s hx hy), ?_⟩
  rw [terminal_write_control s v (by omega) hv hcr hlf]
  refine ⟨rfl, rfl, ?_, ?_, by omega⟩
  · show store _ _ _ _ = _
    rw [store_other _ _ _ _ hj]
  · show store _ _ _ _ = _
    rw [store_same]

theorem control_byte_keeps_cursor_witness :
    ((setCursorPosition power_on 39 23).term_x < 40 ∧
      (setCursorPosition power_on 39 23).term_y < 24 ∧
      ¬ (0x20 ≤ 0x07 ∧ 0x07 ≤ 0x7E) ∧ 0x07 ≠ 0x0D ∧ 0x07 ≠ 0x0A ∧
      (5 : Nat) ≠ cursor_index (setCursorPosition power_on 39 23)) ∧
    terminal_write_checked (setCursorPosition power_on 39 23) 0x07
      = some (terminal_write (setCursorPosition power_on 39 23) 0x07) ∧
    (terminal_write (setCursorPosition power_on 39 23) 0x07).term_x
      = (setCursorPosition power_on 39 23).term_x ∧
    (terminal_write (setCursorPosition power_on 39 23) 0x07).term_y
      = (setCursorPosition power_on 39 23).term_y ∧
    (terminal_write (setCursorPosition power_on 39 23) 0x07).terminal_ram 5
      = (setCursorPosition power_on 39 23).terminal_ram 5 ∧
    (terminal_write (setCursorPosition power_on 39 23) 0x07).terminal_ram
        (cursor_index (setCursorPosition power_on 39 23)) = 0x20 ∧
    0x20 ≠ 0x07 :=
  ⟨by decide,
   control_byte_keeps_cursor (setCursorPosition power_on 39 23) 0x07 5 (by decide)
     (by decide) (by decide) (by decide) (by decide) (by decide)⟩

/-! ## Newline and scroll: inside the grid and at its end -/

/-- CR or LF written with the cursor cell inside the array: every store stays inside the
array, the column becomes 0; with `G'` the grid with the cursor cell blanked, below row 23
the row advances by one and the grid is `G'`, and on row 23 the row stays, the rows 0..22
become the rows 1..23 of `G'` and row 23 becomes blank. -/
theorem newline_and_scroll_in_grid (s : State) (v i c : Nat) (hin : cursor_index s < 960)
    (hv : v = 0x0D ∨ v = 0x0A) (hi : i < 23) (hc : c < 40) :
    terminal_write_checked s v = some (terminal_write s v) ∧
    (terminal_write s v).term_x = 0 ∧
    (terminal_write s v).term_y = (if s.term_y < 23 then s.term_y + 1 else 23) ∧
    (terminal_write s v).terminal_ram (i * 40 + c) =
      (if s.term_y < 23 then store s.terminal_ram (cursor_index s) 0x20 (i * 40 + c)
       else store s.terminal_ram (cursor_index s) 0x20 ((i + 1) * 40 + c)) ∧
    (terminal_write s v).terminal_ram (23 * 40 + c) =
      (if s.term_y < 23 then store s.terminal_ram (cursor_index s) 0x20 (23 * 40 + c)
       else 0x20) := by
  have hrow : s.term_y ≤ 23 := by
    have h : s.term_y * 40 + s.term_x < 960 := hin
    omega
  refine ⟨terminal_write_checked_in s v hin, ?_⟩
  by_cases hy : s.term_y < 23
  · rw [terminal_write_newline s v hv hy, if_pos hy, if_pos hy, if_pos hy]
    exact ⟨rfl, rfl, rfl, rfl⟩
  · rw [terminal_write_newline_scroll s v hv (by omega), if_neg hy, if_neg hy, if_neg hy]
    refine ⟨rfl, ?_, ?_, ?_⟩
    · show s.term_y = 23
      omega
    · exact scroll_up_upper _ i c hi hc
    · exact scroll_up_last _ c hc

/-- The state after 23 line feeds and 40 printable bytes from the power-on state: the cursor
is at column 40 of row 23, cell index 960. -/
theorem grid_end_reached :
    (terminal_write_all power_on (List.replicate 23 0x0A ++ List.replicate 40 0x41)).term_x
      = 40 ∧
    (terminal_write_all power_on (List.replicate 23 0x0A ++ List.replicate 40 0x41)).term_y
      = 23 ∧
    cursor_index
      (terminal_write_all power_on (List.replicate 23 0x0A ++ List.replicate 40 0x41))
      = 960 := by
  rw [terminal_write_all_concat]
  obtain ⟨hx1, hy1⟩ := terminal_write_all_newlines 23 power_on rfl (by decide)
  obtain ⟨hx2, hy2, _⟩ := terminal_write_all_row (List.replicate 40 0x41)
    (terminal_write_all power_on (List.replicate 23 0x0A)) (by rw [hx1]; decide) (by decide)
  have hx : (terminal_write_all (terminal_write_all power_on (List.replicate 23 0x0A))
      (List.replicate 40 0x41)).term_x = 40 := by
    rw [hx2, hx1]; rfl
  have hy : (terminal_write_all (terminal_write_all power_on (List.replicate 23 0x0A))
      (List.replicate 40 0x41)).term_y = 23 := by
    rw [hy2, hy1]; rfl
  refine ⟨hx, hy, ?_⟩
  unfold cursor_index TERM_WIDTH
  rw [hx, hy]

/-- C8 fails on the code: after 23 line feeds and 40 printable bytes from the power-on state
the cursor is at row 23, column 40, a state of the claim; `terminal_write` of CR there, and
of a printable byte, first stores at cell index 960, past the array, before it scrolls. -/
theorem newline_store_past_grid :
    (terminal_write_all power_on (List.replicate 23 0x0A ++ List.replicate 40 0x41)).term_y
      ≤ 23 ∧
    (terminal_write_all power_on (List.replicate 23 0x0A ++ List.replicate 40 0x41)).term_x
      ≤ 40 ∧
    cursor_index
      (terminal_write_all power_on (List.replicate 23 0x0A ++ List.replicate 40 0x41))
      = 960 ∧
    terminal_write_checked
      (terminal_write_all power_on (List.replicate 23 0x0A ++ List.replicate 40 0x41)) 0x0D
      = none ∧
    terminal_write_checked
      (terminal_write_all power_on (List.replicate 23 0x0A ++ List.replicate 40 0x41)) 0x41
      = none := by
  obtain ⟨hx, hy, hidx⟩ := grid_end_reached
  refine ⟨by omega, by omega, hidx, ?_, ?_⟩
  · exact terminal_write_checked_out _ 0x0D (by omega)
  · exact terminal_write_checked_out _ 0x41 (by omega)

/-! ## Clearing the screen: inside the grid and past its end -/

/-- A blank written with the cursor cell inside the array moves the cursor index one on. -/
theorem cursor_index_after_blank (s : State) (hx : s.term_x ≤ 40)
    (hin : cursor_index s < 960) :
    cursor_index (terminal_write s 32) = cursor_index s + 1 := by
  have hidx : s.term_y * 40 + s.term_x < 960 := hin
  by_cases hx1 : s.term_x ≤ 39
  · rw [terminal_write_printable s 32 hx1 (by decide) (by decide)]
    unfold cursor_index TERM_WIDTH
    show s.term_y * 40 + (s.term_x + 1) = s.term_y * 40 + s.term_x + 1
    omega
  · rw [terminal_write_printable_wrap s 32 (by omega) (by omega) (by decide) (by decide)]
    unfold cursor_index TERM_WIDTH
    show (s.term_y + 1) * 40 + 1 = s.term_y * 40 + s.term_x + 1
    omega

/-- The clearing loop leaves the array when it has more blanks to write than cells are left
from the cursor cell to the end of the grid. -/
theorem clear_loop_leaves_grid (k : Nat) :
    ∀ s : State, s.term_x ≤ 40 → s.term_y ≤ 23 → 960 < cursor_index s + k →
      terminal_write_n_checked k s 32 = none := by
  induction k with
  | zero =>
    intro s hx hy h
    have hidx : cursor_index s = s.term_y * 40 + s.term_x := rfl
    omega
  | succ k ih =>
    intro s hx hy h
    unfold terminal_write_n_checked
    by_cases hin : cursor_index s < 960
    · rw [terminal_write_checked_in s 32 hin]
      have hb := terminal_write_cursor_bound s 32 hx hy
      exact ih (terminal_write s 32) hb.1 hb.2
        (by rw [cursor_index_after_blank s hx hin]; omega)
    · rw [terminal_write_checked_out s 32 (by omega)]

/-- The clearing loop stays inside the array while it has no more blanks to write than cells
are left. -/
theorem clear_loop_in_grid (k : Nat) :
    ∀ s : State, s.term_x ≤ 40 → s.term_y ≤ 23 → cursor_index s + k ≤ 960 →
      terminal_write_n_checked k s 32 =
        some (Nat.iterate (fun t => terminal_write t 32) k s) := by
  induction k with
  | zero => intro s _ _ _; rfl
  | succ k ih =>
    intro s hx hy h
    unfold terminal_write_n_checked
    have hin : cursor_index s < 960 := by omega
    rw [terminal_write_checked_in s 32 hin, Function.iterate_succ_apply]
    have hb := terminal_write_cursor_bound s 32 hx hy
    exact ih (terminal_write s 32) hb.1 hb.2
      (by rw [cursor_index_after_blank s hx hin]; omega)

/-- From the cursor at column 0, row 0 `terminal_clearScreen` stays inside the array, leaves
every one of the 960 cells blank and the cursor at column 0, row 0. -/
theorem clear_screen_from_origin (s : State) (j : Nat) (hx : s.term_x = 0)
    (hy : s.term_y = 0) (hj : j < 960) :
    terminal_clearScreen_checked s = some (terminal_clearScreen s) ∧
    (terminal_clearScreen s).terminal_ram j = 0x20 ∧
    (terminal_clearScreen s).term_x = 0 ∧
    (terminal_clearScreen s).term_y = 0 := by
  have hn : TERM_WIDTH * TERM_HEIGHT = 960 := rfl
  have hidx : cursor_index s = 0 := by
    unfold cursor_index
    rw [hx, hy]; rfl
  refine ⟨?_, ?_, rfl, rfl⟩
  · unfold terminal_clearScreen_checked terminal_clearScreen
    simp only [hn]
    rw [clear_loop_in_grid 960 s (by omega) (by omega) (by omega)]
  · unfold terminal_clearScreen
    simp only [hn]
    obtain ⟨hx1, hy1, hA, hB⟩ := clear_iterate 960 0 s (by omega) (by omega)
      (fun j h1 h2 => by omega) (Or.inl (Nat.zero_le _))
    have hp : cursor_index (Nat.iterate (fun t => terminal_write t 32) 960 s) ≤ 960 := by
      unfold cursor_index TERM_WIDTH
      omega
    by_cases hlt : j < cursor_index (Nat.iterate (fun t => terminal_write t 32) 960 s)
    · exact hA j (by omega) hlt
    · rcases hB with hB | hB
      · omega
      · exact hB j (by omega) hj

/-- C15 fails on the code: from the cursor at column 5, row 3, inside the grid, the loop of
`terminal_clearScreen` reaches column 40 of row 23 with blanks still to write and stores
past the array. -/
theorem clear_screen_stores_past_grid :
    (setCursorPosition power_on 5 3).term_x < 40 ∧
    (setCursorPosition power_on 5 3).term_y < 24 ∧
    terminal_clearScreen_checked (setCursorPosition power_on 5 3) = none := by
  have hn : TERM_WIDTH * TERM_HEIGHT = 960 := rfl
  refine ⟨by decide, by decide, ?_⟩
  unfold terminal_clearScreen_checked
  simp only [hn]
  rw [clear_loop_leaves_grid 960 (setCursorPosition power_on 5 3) (by decide) (by decide)
    (by decide)]

end Espple
